import Mathlib

/-!
Verification of the STRATCOM Global Command region mapping and
spatial-lookup subsystem.

The development shallowly embeds the two source classes that the claims
are about:

P MapManager (src/public/js/core/MapManager.js): the states catalog, the
  uniform 720 x 360 spatial grid (buildSpatialIndex), the nearest-centroid
  point locator (findStateAtCoords) with its haversine distance, and the
  mutators setStateColor and updateStateData.

P SVGGlobeRenderer (the SVG globe renderer source file): the regions map,
  the canvas rasterization pass (renderToCanvas), region mutators
  (setRegionOwner, selectRegion), and the land-color derivation
  (adjustColorForLand).

Modelling conventions: JavaScript numbers are idealized as exact
arithmetic; coordinates and other numeric data are rationals, and the
haversine distance is a real number built from Real.sin, Real.cos and an
explicit atan2 mirroring Math.atan2.  JavaScript Math.floor is Int.floor.
A JS Map is modelled as a lookup function (MapManager.states, keyed
lookups) or as an association list in insertion order where iteration
order matters (SVGGlobeRenderer.regions).  The flat spatial index array
is a function from the flat integer index to the optional cell list;
null entries are none, and array.push appends on the right.  Infinity
(the initial minDist of findStateAtCoords) is eliminated by the
observation that every real distance compares below it, so the
accumulator is an Option that accepts the first resolvable candidate.
-/

/-- A centroid in decimal degrees, as stored on a state record. -/
structure Centroid where
  lat : ℚ
  lon : ℚ
  deriving DecidableEq

/-- One entry of the stateData argument of MapManager.buildSpatialIndex. -/
structure StateInput where
  id : String
  centroid : Option Centroid
  deriving DecidableEq

/-- A state record of MapManager.states (extractStates shape). -/
structure StateRec where
  id : String
  name : String
  centroid : Option Centroid
  owner : Option String
  color : Option String
  data : List (String × String)
  deriving DecidableEq

/-- The slice of an SVG path element that MapManager mutators touch. -/
structure SvgElem where
  styleFill : Option String
  dataOriginalFill : Option String
  deriving DecidableEq

/-- The MapManager instance state used by the claims: the id-to-state
catalog, the id-to-element map, and the flat spatial index array. -/
structure MMState where
  states : String → Option StateRec
  stateElements : String → Option SvgElem
  spatialIndex : Int → Option (List String)

/-- Source: gridX = Math.floor((lon + 180) * (this.cellsX / 360)) with
cellsX = 720. -/
def homeGridX (lon : ℚ) : Int := Int.floor ((lon + 180) * ((720 : ℚ) / 360))

/-- Source: gridY = Math.floor((90 - lat) * (this.cellsY / 180)) with
cellsY = 360. -/
def homeGridY (lat : ℚ) : Int := Int.floor ((90 - lat) * ((360 : ℚ) / 180))

/-- Source: Math.max(0, Math.min(this.cellsX - 1, g)). -/
def clampX (g : Int) : Int := max 0 (min (720 - 1) g)

/-- Source: Math.max(0, Math.min(this.cellsY - 1, g)). -/
def clampY (g : Int) : Int := max 0 (min (360 - 1) g)

/-- Source: index = y * this.cellsX + x. -/
def flatIndex (x y : Int) : Int := y * 720 + x

/-- One push into a cell of the spatial index: initialize the cell to []
if it is still null, then push the id at the end (array.push). -/
def pushAt (f : Int → Option (List String)) (idx : Int) (stateId : String) :
    Int → Option (List String) :=
  fun i => if i = idx then some (((f idx).getD []) ++ [stateId]) else f i

/-- The 5 x 5 neighborhood offsets, in source loop order: dx is the outer
loop and dy the inner loop, each from -2 to 2. -/
def neighborOffsets : List (Int × Int) :=
  ([-2, -1, 0, 1, 2] : List Int).flatMap
    (fun dx => ([-2, -1, 0, 1, 2] : List Int).map (fun dy => (dx, dy)))

/-- The body of the stateData.forEach of buildSpatialIndex: a state with
a centroid marks the clamped 5 x 5 neighborhood of its home cell; a state
without a centroid marks nothing. -/
def insertState (f : Int → Option (List String)) (rec : StateInput) :
    Int → Option (List String) :=
  match rec.centroid with
  | none => f
  | some c =>
    neighborOffsets.foldl
      (fun g d =>
        pushAt g
          (flatIndex (clampX (homeGridX c.lon + d.1)) (clampY (homeGridY c.lat + d.2)))
          rec.id)
      f

/-- MapManager.buildSpatialIndex viewed as the index it produces: the
array is re-initialized to all null, then every state is inserted in
input order. -/
def buildIndexList (data : List StateInput) : Int → Option (List String) :=
  data.foldl insertState (fun _ => none)

/-- MapManager.buildSpatialIndex as a state transformer: the previous
spatialIndex field is discarded and replaced wholesale. -/
def buildSpatialIndex (mm : MMState) (data : List StateInput) : MMState :=
  { mm with spatialIndex := buildIndexList data }

/-- The contents of a cell of the spatial index (null reads as empty). -/
def cellList (f : Int → Option (List String)) (idx : Int) : List String :=
  (f idx).getD []

/-- Math.atan2, written out by cases as specified for JavaScript
(ignoring signed zeros, which the real numbers do not have). -/
noncomputable def atan2 (y x : Real) : Real :=
  if 0 < x then Real.arctan (y / x)
  else if x < 0 ∧ 0 ≤ y then Real.arctan (y / x) + Real.pi
  else if x < 0 ∧ y < 0 then Real.arctan (y / x) - Real.pi
  else if x = 0 ∧ 0 < y then Real.pi / 2
  else if x = 0 ∧ y < 0 then -(Real.pi / 2)
  else 0

/-- MapManager.haversineDistance, translated literally: R = 6371 km, the
haversine form of the central angle, the angle recovered through
2 * atan2(sqrt a, sqrt (1 - a)). -/
noncomputable def haversineDistance (lat1 lon1 lat2 lon2 : ℚ) : Real :=
  let R : Real := 6371
  let dLat : Real := ((lat2 : Real) - (lat1 : Real)) * Real.pi / 180
  let dLon : Real := ((lon2 : Real) - (lon1 : Real)) * Real.pi / 180
  let a : Real :=
    Real.sin (dLat / 2) * Real.sin (dLat / 2) +
      Real.cos ((lat1 : Real) * Real.pi / 180) * Real.cos ((lat2 : Real) * Real.pi / 180) *
        Real.sin (dLon / 2) * Real.sin (dLon / 2)
  let c : Real := 2 * atan2 (Real.sqrt a) (Real.sqrt (1 - a))
  R * c

/-- The candidate loop of findStateAtCoords.  The accumulator holds the
current (closest, minDist) pair; none stands for (null, Infinity), which
every real distance beats, so the first resolvable candidate is always
accepted.  A candidate id that does not resolve to a state with a
centroid is skipped. -/
noncomputable def findClosestLoop (states : String → Option StateRec) (lat lon : ℚ) :
    List String → Option (StateRec × Real) → Option (StateRec × Real)
  | [], acc => acc
  | stateId :: rest, acc =>
    findClosestLoop states lat lon rest
      (match states stateId with
       | none => acc
       | some s =>
         match s.centroid with
         | none => acc
         | some c =>
           let dist := haversineDistance lat lon c.lat c.lon
           match acc with
           | none => some (s, dist)
           | some best => if dist < best.2 then some (s, dist) else some best)

/-- The flat index of the grid cell a query maps to, after clamping. -/
def queryCellIndex (lat lon : ℚ) : Int :=
  flatIndex (clampX (homeGridX lon)) (clampY (homeGridY lat))

/-- MapManager.findStateAtCoords: map the query to its clamped cell,
return null on a null or empty candidate list, otherwise run the
closest-candidate loop and return the state component. -/
noncomputable def findStateAtCoords (mm : MMState) (lat lon : ℚ) : Option StateRec :=
  match mm.spatialIndex (queryCellIndex lat lon) with
  | none => none
  | some candidates =>
    if candidates = [] then none
    else (findClosestLoop mm.states lat lon candidates none).map Prod.fst

/-- The candidate list findStateAtCoords consults for a query. -/
def candidatesAt (mm : MMState) (lat lon : ℚ) : List String :=
  (mm.spatialIndex (queryCellIndex lat lon)).getD []

/-- The distance findStateAtCoords associates with a candidate id: the
haversine distance from the query to the centroid of the state the id
resolves to (0 as a don t-care for unresolvable ids, which the loop
skips). -/
noncomputable def candidateDist (states : String → Option StateRec) (lat lon : ℚ)
    (stateId : String) : Real :=
  match (states stateId).bind StateRec.centroid with
  | some c => haversineDistance lat lon c.lat c.lon
  | none => 0

/-- Association-list lookup mirroring JS Map.get on an insertion-ordered
map with unique keys (first matching key wins). -/
def assocGet {α : Type} (l : List (String × α)) (key : String) : Option α :=
  match l with
  | [] => none
  | p :: rest => if p.1 = key then some p.2 else assocGet rest key

/-- Replace the value stored under a key, keeping order (JS object/Map
semantics for an existing key). -/
def assocSet {α : Type} (l : List (String × α)) (key : String) (v : α) :
    List (String × α) :=
  if (assocGet l key).isSome then
    l.map (fun p => if p.1 = key then (p.1, v) else p)
  else l ++ [(key, v)]

/-- Object.assign(state.data, data): each patch entry overwrites the
existing key in place or is appended. -/
def objAssign (base patch : List (String × String)) : List (String × String) :=
  patch.foldl (fun acc kv => assocSet acc kv.1 kv.2) base

/-- MapManager.setStateColor: a no-op unless the id has an SVG element;
otherwise set the element fill and, if the state record exists, its
color field. -/
def setStateColor (mm : MMState) (stateId color : String) : MMState :=
  match mm.stateElements stateId with
  | none => mm
  | some el =>
    { mm with
      stateElements := fun i =>
        if i = stateId then some { el with styleFill := some color }
        else mm.stateElements i
      states := fun i =>
        if i = stateId then
          match mm.states stateId with
          | some s => some { s with color := some color }
          | none => none
        else mm.states i }

/-- MapManager.updateStateData: a no-op unless the id has a state record;
otherwise Object.assign the patch into the data payload. -/
def updateStateData (mm : MMState) (stateId : String)
    (patch : List (String × String)) : MMState :=
  match mm.states stateId with
  | none => mm
  | some s =>
    { mm with
      states := fun i =>
        if i = stateId then some { s with data := objAssign s.data patch }
        else mm.states i }

/-- A region record of SVGGlobeRenderer.regions (loadSVG shape). -/
structure Region where
  id : String
  name : String
  pathData : Option String
  owner : String
  originalFill : String
  className : String
  selected : Bool
  data : List (String × String)
  deriving DecidableEq

/-- The renderer theme object (constructor literal). -/
structure Theme where
  ocean : String
  land : String
  border : String
  borderWidth : ℚ
  selectedBorder : String
  selectedBorderWidth : ℚ
  deriving DecidableEq

/-- The THREE.CanvasTexture handle: the only part of it the renderer
core touches is the needsUpdate flag. -/
structure TextureObj where
  needsUpdate : Bool
  deriving DecidableEq

/-- A parsed viewBox attribute (four numbers). -/
structure ViewBox where
  minX : ℚ
  minY : ℚ
  boxW : ℚ
  boxH : ℚ
  deriving DecidableEq

/-- The slice of the parsed SVG document renderToCanvas reads. -/
structure SvgDocR where
  viewBox : Option ViewBox
  deriving DecidableEq

/-- The SVGGlobeRenderer instance state: regions in insertion order, the
color tables, the texture canvas dimensions, the optional texture handle,
and the opaque scene/camera handles the renderer never reads during
rasterization. -/
structure RendererState where
  scene : Nat
  camera : Nat
  regions : List (String × Region)
  svgDoc : Option SvgDocR
  theme : Theme
  ownerColors : String → Option String
  textureW : Nat
  textureH : Nat
  texture : Option TextureObj

/-- Value of a hex digit character, as parseInt(-, 16) reads it. -/
def hexDigitVal (c : Char) : Nat :=
  if ('0' ≤ c ∧ c ≤ '9') then c.toNat - 48
  else if ('a' ≤ c ∧ c ≤ 'f') then c.toNat - 87
  else if ('A' ≤ c ∧ c ≤ 'F') then c.toNat - 55
  else 0

/-- parseInt of a two-character hex slice (the only shape
adjustColorForLand feeds it). -/
def parseHex2 (cs : List Char) : Nat :=
  match cs with
  | [c1, c2] => 16 * hexDigitVal c1 + hexDigitVal c2
  | _ => 0

/-- SVGGlobeRenderer.adjustColorForLand: parse the three channel bytes of
a hash-prefixed hex color, multiply each by the factor 0.3 = 3/10 and
floor (Math.floor(channel * 0.3)), and print an rgb() string. -/
def adjustColorForLand (hexColor : String) : String :=
  let cs := hexColor.data
  let r := parseHex2 ((cs.drop 1).take 2)
  let g := parseHex2 ((cs.drop 3).take 2)
  let b := parseHex2 ((cs.drop 5).take 2)
  let newR := (Int.floor ((r : ℚ) * (3 / 10))).toNat
  let newG := (Int.floor ((g : ℚ) * (3 / 10))).toNat
  let newB := (Int.floor ((b : ℚ) * (3 / 10))).toNat
  "rgb(" ++ toString newR ++ ", " ++ toString newG ++ ", " ++ toString newB ++ ")"

/-- One canvas drawing command, carrying the style in force when it is
issued.  The rasterized buffer is a pure function of the emitted command
sequence, so byte-identical output is modelled as identical traces. -/
inductive DrawCmd where
  | fillRect (color : String) (x y w h : Real)
  | gradFillRect (stops : List (Real × String)) (x y w h : Real)
  | save
  | scaleBy (sx sy : Real)
  | fillPath (color : String) (path : String)
  | strokePath (color : String) (width : ℚ) (path : String)
  | restore
  | polyFill (color : String) (pts : List (Real × Real))
  | polyFillStroke (fill stroke : String) (width : ℚ) (pts : List (Real × Real))
  | line (color : String) (width : ℚ) (x1 y1 x2 y2 : Real)

/-- SVGGlobeRenderer.renderRegion: skip regions without path data, fill
with the darkened owner color when the owner string is truthy and has a
palette entry (else the theme land color), then stroke the border in the
selected or unselected style. -/
def renderRegionTrace (theme : Theme) (ownerColors : String → Option String)
    (region : Region) : List DrawCmd :=
  match region.pathData with
  | none => []
  | some pd =>
    let fillColor :=
      if region.owner ≠ "" then
        match ownerColors region.owner with
        | some base => adjustColorForLand base
        | none => theme.land
      else theme.land
    [DrawCmd.fillPath fillColor pd,
     DrawCmd.strokePath
       (if region.selected then theme.selectedBorder else theme.border)
       (if region.selected then theme.selectedBorderWidth else theme.borderWidth)
       pd]

/-- SVGGlobeRenderer.addIceCaps: north gradient, the sine-modulated ice
edge polygon sampled every 40 pixels, and the south gradient. -/
noncomputable def iceCapsTrace (width height : Nat) : List DrawCmd :=
  let w : Real := width
  let h : Real := height
  let edge : List (Real × Real) :=
    (List.range (width / 40 + 1)).map
      (fun k =>
        let x : Real := (40 * k : Nat)
        (x, h * 0.08 + Real.sin (x * 0.015) * 12 + Real.sin (x * 0.03) * 8))
  [DrawCmd.gradFillRect
     [(0, "rgba(180, 200, 230, 0.95)"), (0.5, "rgba(150, 180, 210, 0.7)"),
      (1, "rgba(100, 140, 180, 0)")] 0 0 w (h * 0.15),
   DrawCmd.polyFill "rgba(200, 220, 240, 0.8)"
     ((0, h * 0.08) :: edge ++ [(w, 0), (0, 0)]),
   DrawCmd.gradFillRect
     [(0, "rgba(200, 220, 240, 0.9)"), (1, "rgba(150, 180, 210, 0)")]
     0 (h * 0.92) w (h * 0.08)]

/-- SVGGlobeRenderer.addGridLines: 19 latitude lines and 37 longitude
lines at a tenth of the canvas span. -/
noncomputable def gridLinesTrace (width height : Nat) : List DrawCmd :=
  let w : Real := width
  let h : Real := height
  ((List.range 19).map
    (fun i => DrawCmd.line "rgba(0, 255, 136, 0.1)" 1 0 (i * (h / 18)) w (i * (h / 18)))) ++
  ((List.range 37).map
    (fun i => DrawCmd.line "rgba(0, 255, 136, 0.1)" 1 (i * (w / 36)) 0 (i * (w / 36)) h))

/-- The fallback continents of renderFallbackMap. -/
def fallbackContinents : List (List (ℚ × ℚ)) :=
  [[(0.1, 0.15), (0.25, 0.1), (0.3, 0.2), (0.27, 0.4), (0.17, 0.45), (0.07, 0.3)],
   [(0.2, 0.5), (0.25, 0.48), (0.26, 0.7), (0.22, 0.85), (0.17, 0.8), (0.19, 0.6)],
   [(0.45, 0.12), (0.55, 0.1), (0.57, 0.2), (0.55, 0.3), (0.47, 0.28), (0.44, 0.18)],
   [(0.45, 0.35), (0.55, 0.32), (0.57, 0.5), (0.52, 0.7), (0.45, 0.68), (0.42, 0.5)],
   [(0.57, 0.1), (0.8, 0.08), (0.85, 0.2), (0.82, 0.4), (0.7, 0.45), (0.6, 0.35), (0.55, 0.2)],
   [(0.75, 0.6), (0.82, 0.58), (0.85, 0.7), (0.8, 0.78), (0.74, 0.75)]]

/-- SVGGlobeRenderer.renderFallbackMap: ocean, the six hard-coded
continent polygons (the path revisits the first point, as the source
moveTo plus full forEach does), ice caps, grid. -/
noncomputable def fallbackTrace (theme : Theme) (width height : Nat) : List DrawCmd :=
  let w : Real := width
  let h : Real := height
  DrawCmd.fillRect theme.ocean 0 0 w h ::
    (fallbackContinents.map
      (fun pts =>
        let scaled := pts.map (fun p => ((p.1 : Real) * w, (p.2 : Real) * h))
        DrawCmd.polyFillStroke theme.land theme.border 2
          (scaled.headD (0, 0) :: scaled))) ++
    iceCapsTrace width height ++ gridLinesTrace width height

/-- The command trace of SVGGlobeRenderer.renderToCanvas: ocean fill,
then either the fallback map (no SVG document) or the scaled per-region
pass followed by ice caps and grid lines. -/
noncomputable def renderTrace (st : RendererState) : List DrawCmd :=
  let w : Real := st.textureW
  let h : Real := st.textureH
  DrawCmd.fillRect st.theme.ocean 0 0 w h ::
    match st.svgDoc with
    | none => fallbackTrace st.theme st.textureW st.textureH
    | some doc =>
      let vb := doc.viewBox.getD ⟨0, 0, 2000, 1000⟩
      [DrawCmd.save, DrawCmd.scaleBy (w / (vb.boxW : Real)) (h / (vb.boxH : Real))] ++
        st.regions.flatMap (fun p => renderRegionTrace st.theme st.ownerColors p.2) ++
        [DrawCmd.restore] ++ iceCapsTrace st.textureW st.textureH ++
        gridLinesTrace st.textureW st.textureH

/-- The state effect of renderToCanvas: the only instance field it
mutates is texture.needsUpdate (set when a texture exists). -/
def renderToCanvasState (st : RendererState) : RendererState :=
  { st with texture := st.texture.map (fun t => { t with needsUpdate := true }) }

/-- SVGGlobeRenderer.renderToCanvas: the updated instance state paired
with the emitted drawing-command trace. -/
noncomputable def renderToCanvas (st : RendererState) : RendererState × List DrawCmd :=
  (renderToCanvasState st, renderTrace st)

/-- SVGGlobeRenderer.setRegionOwner: look the region up; if present set
its owner and re-render (marking the texture stale), else do nothing. -/
def setRegionOwner (st : RendererState) (regionId owner : String) : RendererState :=
  match assocGet st.regions regionId with
  | none => st
  | some _ =>
    renderToCanvasState
      { st with
        regions := st.regions.map
          (fun p => if p.1 = regionId then (p.1, { p.2 with owner := owner }) else p) }

/-- Clear the selected flag of every region (the deselect-all forEach at
the top of selectRegion). -/
def clearSelections (l : List (String × Region)) : List (String × Region) :=
  l.map (fun p => (p.1, { p.2 with selected := false }))

/-- SVGGlobeRenderer.selectRegion: deselect every region first; then, if
the id resolves, select it, re-render and return it, else return null
(with the deselection already applied). -/
def selectRegion (st : RendererState) (regionId : String) :
    RendererState × Option Region :=
  let cleared := clearSelections st.regions
  match assocGet cleared regionId with
  | some r =>
    let updated := cleared.map
      (fun p => if p.1 = regionId then (p.1, { p.2 with selected := true }) else p)
    (renderToCanvasState { st with regions := updated },
     some { r with selected := true })
  | none => ({ st with regions := cleared }, none)

/-- Number of selected regions in a regions map. -/
def selectedCount (l : List (String × Region)) : Nat :=
  (l.filter (fun p => p.2.selected)).length

/-- The projection of the regions map that renderToCanvas reads: path
geometry, ownership, selection, in iteration order. -/
def regionRenderProj (l : List (String × Region)) :
    List (Option String × String × Bool) :=
  l.map (fun p => (p.2.pathData, p.2.owner, p.2.selected))

/-- Encoder for a hex digit (test-input construction for the color
claims; lowercase, as CSS colors usually are). -/
def hexDigitChar (d : Nat) : Char :=
  if d < 10 then Char.ofNat (48 + d) else Char.ofNat (87 + d)

/-- Encoder for a hash-prefixed six-digit hex color. -/
def encodeHexColor (r g b : Nat) : String :=
  String.mk ['#', hexDigitChar (r / 16), hexDigitChar (r % 16), hexDigitChar (g / 16),
    hexDigitChar (g % 16), hexDigitChar (b / 16), hexDigitChar (b % 16)]

/-- The renderer theme literal from the SVGGlobeRenderer constructor. -/
def themeDefault : Theme :=
  { ocean := "#0a1520", land := "#152520", border := "#00ff88", borderWidth := 1,
    selectedBorder := "#ffffff", selectedBorderWidth := 3 }

/-- The ownership color table literal from the SVGGlobeRenderer
constructor. -/
def ownerColorsDefault : String → Option String := fun owner =>
  if owner = "player" then some "#00ff88"
  else if owner = "ally" then some "#00aaff"
  else if owner = "neutral" then some "#888888"
  else if owner = "hostile" then some "#ff4444"
  else if owner = "contested" then some "#ffaa00"
  else if owner = "unoccupied" then some "#2a3a2a"
  else none

/-- Concrete catalog state A for the end-to-end scenarios. -/
def stateRecA : StateRec :=
  { id := "A", name := "Alpha", centroid := some ⟨10, 10⟩,
    owner := none, color := none, data := [] }

/-- Concrete catalog state B. -/
def stateRecB : StateRec :=
  { id := "B", name := "Beta", centroid := some ⟨-10, -10⟩,
    owner := none, color := none, data := [] }

/-- Concrete catalog state C, with no centroid. -/
def stateRecC : StateRec :=
  { id := "C", name := "Gamma", centroid := none,
    owner := none, color := none, data := [] }

/-- The build input matching the A/B/C catalog. -/
def dataABC : List StateInput :=
  [⟨"A", some ⟨10, 10⟩⟩, ⟨"B", some ⟨-10, -10⟩⟩, ⟨"C", none⟩]

/-- A MapManager state holding the A/B/C catalog with its index built. -/
def mmABC : MMState :=
  { states := fun i =>
      if i = "A" then some stateRecA
      else if i = "B" then some stateRecB
      else if i = "C" then some stateRecC
      else none
    stateElements := fun _ => none
    spatialIndex := buildIndexList dataABC }

/-- A concrete renderer region (selected, so deselection is visible). -/
def regionSelA : Region :=
  { id := "A", name := "RegionA", pathData := some "M0 0 L1 0 L1 1 Z",
    owner := "player", originalFill := "#cccccc", className := "",
    selected := true, data := [] }

/-- A second concrete renderer region. -/
def regionSelB : Region :=
  { id := "B", name := "RegionB", pathData := some "M2 0 L3 0 L3 1 Z",
    owner := "hostile", originalFill := "#cccccc", className := "",
    selected := false, data := [] }

/-- A renderer state with regions A and B. -/
def stSel : RendererState :=
  { scene := 0, camera := 0, regions := [("A", regionSelA), ("B", regionSelB)],
    svgDoc := none, theme := themeDefault, ownerColors := ownerColorsDefault,
    textureW := 2048, textureH := 1024, texture := none }

/-- Renderer states for the determinism scenario: stEx1 and stEx2 agree
on everything renderToCanvas reads but differ in scene and camera
handles, region display names, original fills and the texture handle. -/
def stEx1 : RendererState :=
  { scene := 1, camera := 2, regions := [("R", regionSelA)],
    svgDoc := some ⟨some ⟨0, 0, 2000, 1000⟩⟩, theme := themeDefault,
    ownerColors := ownerColorsDefault, textureW := 2048, textureH := 1024,
    texture := some ⟨false⟩ }

/-- The hidden-state variant of stEx1. -/
def stEx2 : RendererState :=
  { scene := 99, camera := 0,
    regions := [("R", { regionSelA with name := "Other", originalFill := "#ffffff" })],
    svgDoc := some ⟨some ⟨0, 0, 2000, 1000⟩⟩, theme := themeDefault,
    ownerColors := ownerColorsDefault, textureW := 2048, textureH := 1024,
    texture := none }

/-- Membership after a single push: either the id was already in that
cell, or this push targeted the cell with this id. -/
theorem mem_cellList_pushAt (f : Int → Option (List String)) (idx : Int)
    (stateId other : String) (j : Int) :
    other ∈ cellList (pushAt f idx stateId) j ↔
      other ∈ cellList f j ∨ (j = idx ∧ other = stateId) := by
  by_cases h : j = idx
  · subst h
    simp [cellList, pushAt]
  · simp [cellList, pushAt, h]

/-- Membership after pushing one id into a list of cells. -/
theorem mem_cellList_foldl_pushAt (cells : List Int) (f : Int → Option (List String))
    (stateId other : String) (j : Int) :
    other ∈ cellList (cells.foldl (fun g idx => pushAt g idx stateId) f) j ↔
      other ∈ cellList f j ∨ (other = stateId ∧ j ∈ cells) := by
  induction cells generalizing f with
  | nil => simp
  | cons idx rest ih =>
    simp only [List.foldl_cons, ih, mem_cellList_pushAt, List.mem_cons]
    tauto

/-- Membership after inserting one state: the contribution is the clamped
5 x 5 neighborhood of its home cell, and only when it has a centroid. -/
theorem mem_cellList_insertState (f : Int → Option (List String)) (rec : StateInput)
    (other : String) (j : Int) :
    other ∈ cellList (insertState f rec) j ↔
      other ∈ cellList f j ∨
        (other = rec.id ∧ ∃ c, rec.centroid = some c ∧ ∃ d ∈ neighborOffsets,
          j = flatIndex (clampX (homeGridX c.lon + d.1)) (clampY (homeGridY c.lat + d.2))) := by
  cases hc : rec.centroid with
  | none => simp [insertState, hc]
  | some c =>
    have hfold :
        insertState f rec =
          (neighborOffsets.map
            (fun d => flatIndex (clampX (homeGridX c.lon + d.1)) (clampY (homeGridY c.lat + d.2)))).foldl
            (fun g idx => pushAt g idx rec.id) f := by
      simp [insertState, hc, List.foldl_map]
    rw [hfold, mem_cellList_foldl_pushAt]
    simp only [List.mem_map, hc, Option.some.injEq]
    constructor
    · rintro (h | ⟨hid, d, hd, hj⟩)
      · exact Or.inl h
      · exact Or.inr ⟨hid, c, rfl, d, hd, hj.symm⟩
    · rintro (h | ⟨hid, c2, hc2, d, hd, hj⟩)
      · exact Or.inl h
      · cases hc2
        exact Or.inr ⟨hid, d, hd, hj.symm⟩

/-- Membership after folding a list of state insertions. -/
theorem mem_cellList_foldl_insertState (l : List StateInput)
    (f : Int → Option (List String)) (other : String) (j : Int) :
    other ∈ cellList (l.foldl insertState f) j ↔
      other ∈ cellList f j ∨
        ∃ rec ∈ l, other = rec.id ∧ ∃ c, rec.centroid = some c ∧ ∃ d ∈ neighborOffsets,
          j = flatIndex (clampX (homeGridX c.lon + d.1)) (clampY (homeGridY c.lat + d.2)) := by
  induction l generalizing f with
  | nil => simp
  | cons rec rest ih =>
    simp only [List.foldl_cons, ih, mem_cellList_insertState, List.mem_cons]
    constructor
    · rintro ((h | ⟨hid, c, hc, d, hd, hj⟩) | ⟨r, hr, hid, c, hc, d, hd, hj⟩)
      · exact Or.inl h
      · exact Or.inr ⟨rec, Or.inl rfl, hid, c, hc, d, hd, hj⟩
      · exact Or.inr ⟨r, Or.inr hr, hid, c, hc, d, hd, hj⟩
    · rintro (h | ⟨r, hr | hr, hid, c, hc, d, hd, hj⟩)
      · exact Or.inl (Or.inl h)
      · subst hr
        exact Or.inl (Or.inr ⟨hid, c, hc, d, hd, hj⟩)
      · exact Or.inr ⟨r, hr, hid, c, hc, d, hd, hj⟩

/-- Membership in the built index, characterized per input record. -/
theorem mem_cellList_build (data : List StateInput) (other : String) (j : Int) :
    other ∈ cellList (buildIndexList data) j ↔
      ∃ rec ∈ data, other = rec.id ∧ ∃ c, rec.centroid = some c ∧ ∃ d ∈ neighborOffsets,
        j = flatIndex (clampX (homeGridX c.lon + d.1)) (clampY (homeGridY c.lat + d.2)) := by
  unfold buildIndexList
  rw [mem_cellList_foldl_insertState]
  simp [cellList]

/-- The offset list enumerates exactly the integer box [-2, 2] x [-2, 2]. -/
theorem mem_neighborOffsets (d : Int × Int) :
    d ∈ neighborOffsets ↔ -2 ≤ d.1 ∧ d.1 ≤ 2 ∧ -2 ≤ d.2 ∧ d.2 ≤ 2 := by
  rcases d with ⟨dx, dy⟩
  simp only [neighborOffsets, List.mem_flatMap, List.mem_map, List.mem_cons,
    List.mem_singleton, Prod.mk.injEq]
  constructor
  · rintro ⟨a, ha, b, hb, h1, h2⟩
    subst h1; subst h2
    simp only [List.not_mem_nil, or_false] at ha hb
    omega
  · rintro ⟨h1, h2, h3, h4⟩
    refine ⟨dx, by omega, dy, by omega, rfl, rfl⟩

/-- Records of a duplicate-free input are determined by their id. -/
theorem eq_of_nodup_ids {data : List StateInput}
    (h : (data.map StateInput.id).Nodup) {a b : StateInput}
    (ha : a ∈ data) (hb : b ∈ data) (hid : a.id = b.id) : a = b :=
  List.inj_on_of_nodup_map h ha hb hid

/-- The haversine a-term, named so the distance lemmas can factor it. -/
noncomputable def havA (lat1 lon1 lat2 lon2 : ℚ) : Real :=
  let dLat : Real := ((lat2 : Real) - (lat1 : Real)) * Real.pi / 180
  let dLon : Real := ((lon2 : Real) - (lon1 : Real)) * Real.pi / 180
  Real.sin (dLat / 2) * Real.sin (dLat / 2) +
    Real.cos ((lat1 : Real) * Real.pi / 180) * Real.cos ((lat2 : Real) * Real.pi / 180) *
      Real.sin (dLon / 2) * Real.sin (dLon / 2)

/-- The haversine distance in terms of its a-term. -/
theorem haversineDistance_def (lat1 lon1 lat2 lon2 : ℚ) :
    haversineDistance lat1 lon1 lat2 lon2 =
      6371 * (2 * atan2 (Real.sqrt (havA lat1 lon1 lat2 lon2))
        (Real.sqrt (1 - havA lat1 lon1 lat2 lon2))) := rfl

/-- Math.atan2 of a nonnegative y is nonnegative. -/
theorem atan2_nonneg {y x : Real} (hy : 0 ≤ y) : 0 ≤ atan2 y x := by
  unfold atan2
  split_ifs with h1 h2 h3 h4 h5
  · have hq : 0 ≤ y / x := div_nonneg hy h1.le
    have := Real.arctan_strictMono.monotone hq
    rwa [Real.arctan_zero] at this
  · have h := Real.neg_pi_div_two_lt_arctan (y / x)
    have hπ := Real.pi_pos
    linarith
  · exact absurd h3.2 (not_lt.mpr hy)
  · have hπ := Real.pi_pos
    linarith
  · exact absurd h5.2 (not_lt.mpr hy)
  · exact le_refl 0

/-- The haversine distance of the source formula is never negative (in
exact real arithmetic). -/
theorem haversineDistance_nonneg (lat1 lon1 lat2 lon2 : ℚ) :
    0 ≤ haversineDistance lat1 lon1 lat2 lon2 := by
  rw [haversineDistance_def]
  have h : 0 ≤ atan2 (Real.sqrt (havA lat1 lon1 lat2 lon2))
      (Real.sqrt (1 - havA lat1 lon1 lat2 lon2)) :=
    atan2_nonneg (Real.sqrt_nonneg (havA lat1 lon1 lat2 lon2))
  linarith

/-- atan2 at (0, 1), the value reached when the a-term vanishes. -/
theorem atan2_zero_one : atan2 0 1 = 0 := by
  have h1 : (0 : Real) < 1 := one_pos
  simp [atan2, h1, Real.arctan_zero]

/-- The a-term vanishes at coincident coordinates. -/
theorem havA_self (lat lon : ℚ) : havA lat lon lat lon = 0 := by
  simp [havA]

/-- A point is at haversine distance zero from itself. -/
theorem haversineDistance_self (lat lon : ℚ) :
    haversineDistance lat lon lat lon = 0 := by
  rw [haversineDistance_def, havA_self]
  simp [atan2_zero_one]

/-- A candidate id whose resolution has a centroid, unpacked. -/
theorem resolve_of_isSome {states : String → Option StateRec} {stateId : String}
    (h : ((states stateId).bind StateRec.centroid).isSome) :
    ∃ s c, states stateId = some s ∧ s.centroid = some c := by
  cases hs : states stateId with
  | none => rw [hs] at h; simp at h
  | some s =>
    cases hc : s.centroid with
    | none => rw [hs] at h; simp [hc] at h
    | some c => exact ⟨s, c, rfl, hc⟩

/-- candidateDist agrees with the loop distance on resolvable ids. -/
theorem candidateDist_resolve {states : String → Option StateRec} {stateId : String}
    {s : StateRec} {c : Centroid} (hs : states stateId = some s)
    (hc : s.centroid = some c) (lat lon : ℚ) :
    candidateDist states lat lon stateId = haversineDistance lat lon c.lat c.lon := by
  simp [candidateDist, hs, hc]

/-- Behavior of the candidate loop from a live accumulator: either no
candidate strictly improves on the accumulated distance and the
accumulator survives, or the loop returns the first candidate attaining
the strict minimum below it. -/
theorem findClosestLoop_acc_spec (states : String → Option StateRec) (lat lon : ℚ)
    (l : List String)
    (hres : ∀ id2 ∈ l, ((states id2).bind StateRec.centroid).isSome)
    (s0 : StateRec) (d0 : Real) :
    (findClosestLoop states lat lon l (some (s0, d0)) = some (s0, d0) ∧
      ∀ (j : Nat) (hj : j < l.length),
        d0 ≤ candidateDist states lat lon (l.get ⟨j, hj⟩)) ∨
    (∃ (i : Nat) (hi : i < l.length) (s : StateRec) (c : Centroid),
      states (l.get ⟨i, hi⟩) = some s ∧ s.centroid = some c ∧
      findClosestLoop states lat lon l (some (s0, d0)) =
        some (s, haversineDistance lat lon c.lat c.lon) ∧
      haversineDistance lat lon c.lat c.lon < d0 ∧
      (∀ (j : Nat) (hj : j < l.length),
        candidateDist states lat lon (l.get ⟨i, hi⟩) ≤
          candidateDist states lat lon (l.get ⟨j, hj⟩)) ∧
      (∀ (j : Nat) (hj : j < l.length), j < i →
        candidateDist states lat lon (l.get ⟨i, hi⟩) <
          candidateDist states lat lon (l.get ⟨j, hj⟩))) := by
  induction l generalizing s0 d0 with
  | nil =>
    left
    constructor
    · rfl
    · intro j hj
      simp at hj
  | cons stateId rest ih =>
    obtain ⟨s1, c1, hs1, hc1⟩ :=
      resolve_of_isSome (hres stateId (List.mem_cons_self stateId rest))
    have hd1 : candidateDist states lat lon stateId =
        haversineDistance lat lon c1.lat c1.lon :=
      candidateDist_resolve hs1 hc1 lat lon
    have hrest : ∀ id2 ∈ rest, ((states id2).bind StateRec.centroid).isSome :=
      fun id2 h => hres id2 (List.mem_cons_of_mem _ h)
    have hstep : findClosestLoop states lat lon (stateId :: rest) (some (s0, d0)) =
        findClosestLoop states lat lon rest
          (if haversineDistance lat lon c1.lat c1.lon < d0
            then some (s1, haversineDistance lat lon c1.lat c1.lon)
            else some (s0, d0)) := by
      simp [findClosestLoop, hs1, hc1]
    by_cases hlt : haversineDistance lat lon c1.lat c1.lon < d0
    · rw [if_pos hlt] at hstep
      rcases ih hrest s1 (haversineDistance lat lon c1.lat c1.lon) with
        ⟨heq, hall⟩ | ⟨i, hi, s, c, hs, hc, heq, hacc, hmin, hstrict⟩
      · right
        refine ⟨0, by simp, s1, c1, ?_, hc1, ?_, hlt, ?_, ?_⟩
        · exact hs1
        · rw [hstep, heq]
        · intro j hj
          cases j with
          | zero => exact le_refl _
          | succ j =>
            have hj2 : j < rest.length := by simpa using hj
            have := hall j hj2
            simpa [hd1] using this
        · intro j hj hji
          omega
      · right
        have hi2 : i + 1 < (stateId :: rest).length := by
          simp
          omega
        refine ⟨i + 1, hi2, s, c, hs, hc, ?_, ?_, ?_, ?_⟩
        · rw [hstep, heq]
        · exact lt_trans hacc hlt
        · intro j hj
          cases j with
          | zero =>
            have h1 : candidateDist states lat lon ((stateId :: rest).get ⟨i + 1, hi2⟩) =
                candidateDist states lat lon (rest.get ⟨i, hi⟩) := rfl
            rw [h1]
            have h2 : candidateDist states lat lon (rest.get ⟨i, hi⟩) =
                haversineDistance lat lon c.lat c.lon :=
              candidateDist_resolve hs hc lat lon
            have h3 : candidateDist states lat lon ((stateId :: rest).get ⟨0, hj⟩) =
                haversineDistance lat lon c1.lat c1.lon := hd1
            rw [h2, h3]
            exact le_of_lt hacc
          | succ j =>
            have hj2 : j < rest.length := by simpa using hj
            exact hmin j hj2
        · intro j hj hji
          cases j with
          | zero =>
            have h2 : candidateDist states lat lon (rest.get ⟨i, hi⟩) =
                haversineDistance lat lon c.lat c.lon :=
              candidateDist_resolve hs hc lat lon
            show candidateDist states lat lon (rest.get ⟨i, hi⟩) < _
            rw [h2]
            have h3 : candidateDist states lat lon ((stateId :: rest).get ⟨0, hj⟩) =
                haversineDistance lat lon c1.lat c1.lon := hd1
            rw [h3]
            exact hacc
          | succ j =>
            have hj2 : j < rest.length := by simpa using hj
            exact hstrict j hj2 (by omega)
    · rw [if_neg hlt] at hstep
      rcases ih hrest s0 d0 with
        ⟨heq, hall⟩ | ⟨i, hi, s, c, hs, hc, heq, hacc, hmin, hstrict⟩
      · left
        constructor
        · rw [hstep, heq]
        · intro j hj
          cases j with
          | zero =>
            have h3 : candidateDist states lat lon ((stateId :: rest).get ⟨0, hj⟩) =
                haversineDistance lat lon c1.lat c1.lon := hd1
            rw [h3]
            exact not_lt.mp hlt
          | succ j =>
            have hj2 : j < rest.length := by simpa using hj
            exact hall j hj2
      · right
        have hi2 : i + 1 < (stateId :: rest).length := by
          simp
          omega
        refine ⟨i + 1, hi2, s, c, hs, hc, ?_, hacc, ?_, ?_⟩
        · rw [hstep, heq]
        · intro j hj
          cases j with
          | zero =>
            have h2 : candidateDist states lat lon (rest.get ⟨i, hi⟩) =
                haversineDistance lat lon c.lat c.lon :=
              candidateDist_resolve hs hc lat lon
            show candidateDist states lat lon (rest.get ⟨i, hi⟩) ≤ _
            rw [h2]
            have h3 : candidateDist states lat lon ((stateId :: rest).get ⟨0, hj⟩) =
                haversineDistance lat lon c1.lat c1.lon := hd1
            rw [h3]
            have := not_lt.mp hlt
            linarith
          | succ j =>
            have hj2 : j < rest.length := by simpa using hj
            exact hmin j hj2
        · intro j hj hji
          cases j with
          | zero =>
            have h2 : candidateDist states lat lon (rest.get ⟨i, hi⟩) =
                haversineDistance lat lon c.lat c.lon :=
              candidateDist_resolve hs hc lat lon
            show candidateDist states lat lon (rest.get ⟨i, hi⟩) < _
            rw [h2]
            have h3 : candidateDist states lat lon ((stateId :: rest).get ⟨0, hj⟩) =
                haversineDistance lat lon c1.lat c1.lon := hd1
            rw [h3]
            have := not_lt.mp hlt
            linarith
          | succ j =>
            have hj2 : j < rest.length := by simpa using hj
            exact hstrict j hj2 (by omega)

/-- Behavior of the candidate loop from the initial (null, Infinity)
accumulator on a nonempty all-resolvable candidate list: it returns the
first candidate attaining the minimum distance. -/
theorem findClosestLoop_none_spec (states : String → Option StateRec) (lat lon : ℚ)
    (l : List String)
    (hres : ∀ id2 ∈ l, ((states id2).bind StateRec.centroid).isSome)
    (hne : l ≠ []) :
    ∃ (i : Nat) (hi : i < l.length) (s : StateRec) (c : Centroid),
      states (l.get ⟨i, hi⟩) = some s ∧ s.centroid = some c ∧
      findClosestLoop states lat lon l none =
        some (s, haversineDistance lat lon c.lat c.lon) ∧
      (∀ (j : Nat) (hj : j < l.length),
        candidateDist states lat lon (l.get ⟨i, hi⟩) ≤
          candidateDist states lat lon (l.get ⟨j, hj⟩)) ∧
      (∀ (j : Nat) (hj : j < l.length), j < i →
        candidateDist states lat lon (l.get ⟨i, hi⟩) <
          candidateDist states lat lon (l.get ⟨j, hj⟩)) := by
  cases l with
  | nil => exact absurd rfl hne
  | cons stateId rest =>
    obtain ⟨s1, c1, hs1, hc1⟩ :=
      resolve_of_isSome (hres stateId (List.mem_cons_self stateId rest))
    have hd1 : candidateDist states lat lon stateId =
        haversineDistance lat lon c1.lat c1.lon :=
      candidateDist_resolve hs1 hc1 lat lon
    have hrest : ∀ id2 ∈ rest, ((states id2).bind StateRec.centroid).isSome :=
      fun id2 h => hres id2 (List.mem_cons_of_mem _ h)
    have hstep : findClosestLoop states lat lon (stateId :: rest) none =
        findClosestLoop states lat lon rest
          (some (s1, haversineDistance lat lon c1.lat c1.lon)) := by
      simp [findClosestLoop, hs1, hc1]
    rcases findClosestLoop_acc_spec states lat lon rest hrest s1
        (haversineDistance lat lon c1.lat c1.lon) with
      ⟨heq, hall⟩ | ⟨i, hi, s, c, hs, hc, heq, hacc, hmin, hstrict⟩
    · refine ⟨0, by simp, s1, c1, hs1, hc1, ?_, ?_, ?_⟩
      · rw [hstep, heq]
      · intro j hj
        cases j with
        | zero => exact le_refl _
        | succ j =>
          have hj2 : j < rest.length := by simpa using hj
          have := hall j hj2
          simpa [hd1] using this
      · intro j hj hji
        omega
    · have hi2 : i + 1 < (stateId :: rest).length := by
        simp
        omega
      refine ⟨i + 1, hi2, s, c, hs, hc, ?_, ?_, ?_⟩
      · rw [hstep, heq]
      · intro j hj
        cases j with
        | zero =>
          have h2 : candidateDist states lat lon (rest.get ⟨i, hi⟩) =
              haversineDistance lat lon c.lat c.lon :=
            candidateDist_resolve hs hc lat lon
          show candidateDist states lat lon (rest.get ⟨i, hi⟩) ≤ _
          rw [h2]
          have h3 : candidateDist states lat lon ((stateId :: rest).get ⟨0, hj⟩) =
              haversineDistance lat lon c1.lat c1.lon := hd1
          rw [h3]
          exact le_of_lt hacc
        | succ j =>
          have hj2 : j < rest.length := by simpa using hj
          exact hmin j hj2
      · intro j hj hji
        cases j with
        | zero =>
          have h2 : candidateDist states lat lon (rest.get ⟨i, hi⟩) =
              haversineDistance lat lon c.lat c.lon :=
            candidateDist_resolve hs hc lat lon
          show candidateDist states lat lon (rest.get ⟨i, hi⟩) < _
          rw [h2]
          have h3 : candidateDist states lat lon ((stateId :: rest).get ⟨0, hj⟩) =
              haversineDistance lat lon c1.lat c1.lon := hd1
          rw [h3]
          exact hacc
        | succ j =>
          have hj2 : j < rest.length := by simpa using hj
          exact hstrict j hj2 (by omega)

/-- Claim C2.  Point-locator contract: findStateAtCoords maps the query
(lat, lon) to the grid cell gx = floor((lon+180)*720/360),
gy = floor((90-lat)*360/180), both clamped into range; if the cell
holds no candidate list or an empty one, it returns none (it is total,
so it never throws); otherwise it returns the candidate whose centroid
has minimum haversine distance to the query, and on an exact tie the
candidate appearing first in the candidate list wins. -/
theorem findStateAtCoords_contract (mm : MMState) (lat lon : ℚ)
    (hres : ∀ id2 ∈ candidatesAt mm lat lon,
      ((mm.states id2).bind StateRec.centroid).isSome) :
    queryCellIndex lat lon =
      (max 0 (min (360 - 1) (Int.floor ((90 - lat) * ((360 : ℚ) / 180))))) * 720 +
        (max 0 (min (720 - 1) (Int.floor ((lon + 180) * ((720 : ℚ) / 360))))) ∧
    (candidatesAt mm lat lon = [] → findStateAtCoords mm lat lon = none) ∧
    (candidatesAt mm lat lon ≠ [] →
      ∃ (i : Nat) (hi : i < (candidatesAt mm lat lon).length) (s : StateRec),
        mm.states ((candidatesAt mm lat lon).get ⟨i, hi⟩) = some s ∧
        findStateAtCoords mm lat lon = some s ∧
        (∀ (j : Nat) (hj : j < (candidatesAt mm lat lon).length),
          candidateDist mm.states lat lon ((candidatesAt mm lat lon).get ⟨i, hi⟩) ≤
            candidateDist mm.states lat lon ((candidatesAt mm lat lon).get ⟨j, hj⟩)) ∧
        (∀ (j : Nat) (hj : j < (candidatesAt mm lat lon).length), j < i →
          candidateDist mm.states lat lon ((candidatesAt mm lat lon).get ⟨i, hi⟩) <
            candidateDist mm.states lat lon ((candidatesAt mm lat lon).get ⟨j, hj⟩))) := by
  refine ⟨rfl, ?_, ?_⟩
  · intro h
    cases hidx : mm.spatialIndex (queryCellIndex lat lon) with
    | none => simp [findStateAtCoords, hidx]
    | some l =>
      have hl : l = [] := by
        simpa [candidatesAt, hidx] using h
      subst hl
      simp [findStateAtCoords, hidx]
  · intro h
    cases hidx : mm.spatialIndex (queryCellIndex lat lon) with
    | none =>
      exact absurd (by simp [candidatesAt, hidx]) h
    | some l =>
      have hcand : candidatesAt mm lat lon = l := by
        simp [candidatesAt, hidx]
      rw [hcand] at h hres ⊢
      obtain ⟨i, hi, s, c, hs, hc, heq, hmin, hstrict⟩ :=
        findClosestLoop_none_spec mm.states lat lon l hres h
      refine ⟨i, hi, s, hs, ?_, hmin, hstrict⟩
      simp [findStateAtCoords, hidx, h, heq]

/-- The scaled latitude angle of an in-range coordinate lies in the
closed interval [-pi/2, pi/2]. -/
theorem lat_angle_mem_Icc {lat : ℚ} (h1 : -90 ≤ lat) (h2 : lat ≤ 90) :
    (lat : ℝ) * Real.pi / 180 ∈ Set.Icc (-(Real.pi / 2)) (Real.pi / 2) := by
  have hpi := Real.pi_pos
  have h1r : (-90 : ℝ) ≤ (lat : ℝ) := by exact_mod_cast h1
  have h2r : (lat : ℝ) ≤ 90 := by exact_mod_cast h2
  constructor
  · have key : 0 ≤ Real.pi * ((lat : ℝ) + 90) :=
      mul_nonneg hpi.le (by linarith)
    nlinarith [key]
  · have key : 0 ≤ Real.pi * (90 - (lat : ℝ)) :=
      mul_nonneg hpi.le (by linarith)
    nlinarith [key]

/-- The scaled latitude angle of a strictly-in-range coordinate lies in
the open interval (-pi/2, pi/2). -/
theorem lat_angle_mem_Ioo {lat : ℚ} (h1 : -90 < lat) (h2 : lat < 90) :
    (lat : ℝ) * Real.pi / 180 ∈ Set.Ioo (-(Real.pi / 2)) (Real.pi / 2) := by
  have hpi := Real.pi_pos
  have h1r : (-90 : ℝ) < (lat : ℝ) := by exact_mod_cast h1
  have h2r : (lat : ℝ) < 90 := by exact_mod_cast h2
  constructor
  · have key : 0 < Real.pi * ((lat : ℝ) + 90) :=
      mul_pos hpi (by linarith)
    nlinarith [key]
  · have key : 0 < Real.pi * (90 - (lat : ℝ)) :=
      mul_pos hpi (by linarith)
    nlinarith [key]

/-- Math.atan2 of a positive y over a nonnegative x is positive. -/
theorem atan2_pos_of_pos {y x : Real} (hy : 0 < y) (hx : 0 ≤ x) : 0 < atan2 y x := by
  unfold atan2
  split_ifs with h1 h2 h3 h4 h5
  · have hq : 0 < y / x := div_pos hy h1
    have h := Real.arctan_strictMono hq
    rwa [Real.arctan_zero] at h
  · exact absurd h2.1 (not_lt.mpr hx)
  · exact absurd h3.1 (not_lt.mpr hx)
  · exact div_pos Real.pi_pos two_pos
  · exact absurd h5.2 (not_lt.mpr hy.le)
  · exfalso
    have hx0 : x = 0 := le_antisymm (not_lt.mp h1) hx
    exact h4 ⟨hx0, hy⟩

/-- The a-term is nonnegative when both latitudes are in range (both
cosines are nonnegative there). -/
theorem havA_nonneg_of_range (lat1 lon1 lat2 lon2 : ℚ)
    (h1a : -90 ≤ lat1) (h1b : lat1 ≤ 90) (h2a : -90 ≤ lat2) (h2b : lat2 ≤ 90) :
    0 ≤ havA lat1 lon1 lat2 lon2 := by
  have hc1 : 0 ≤ Real.cos ((lat1 : ℝ) * Real.pi / 180) :=
    Real.cos_nonneg_of_mem_Icc (lat_angle_mem_Icc h1a h1b)
  have hc2 : 0 ≤ Real.cos ((lat2 : ℝ) * Real.pi / 180) :=
    Real.cos_nonneg_of_mem_Icc (lat_angle_mem_Icc h2a h2b)
  simp only [havA]
  nlinarith [mul_self_nonneg
      (Real.sin (((lat2 : ℝ) - (lat1 : ℝ)) * Real.pi / 180 / 2)),
    mul_nonneg (mul_nonneg hc1 hc2)
      (mul_self_nonneg (Real.sin (((lon2 : ℝ) - (lon1 : ℝ)) * Real.pi / 180 / 2)))]

/-- A zero haversine distance forces the a-term to zero (for in-range
latitudes, where the a-term cannot be negative). -/
theorem havA_eq_zero_of_dist_eq_zero (lat1 lon1 lat2 lon2 : ℚ)
    (hnn : 0 ≤ havA lat1 lon1 lat2 lon2)
    (hz : haversineDistance lat1 lon1 lat2 lon2 = 0) :
    havA lat1 lon1 lat2 lon2 = 0 := by
  by_contra hne
  have hpos : 0 < havA lat1 lon1 lat2 lon2 := lt_of_le_of_ne hnn (Ne.symm hne)
  have hy : 0 < Real.sqrt (havA lat1 lon1 lat2 lon2) := Real.sqrt_pos.mpr hpos
  have hx : 0 ≤ Real.sqrt (1 - havA lat1 lon1 lat2 lon2) := Real.sqrt_nonneg _
  have hat := atan2_pos_of_pos hy hx
  rw [haversineDistance_def] at hz
  nlinarith [hat]

/-- Both nonnegative summands of a vanished a-term vanish. -/
theorem havA_parts_eq_zero (lat1 lon1 lat2 lon2 : ℚ)
    (h1a : -90 ≤ lat1) (h1b : lat1 ≤ 90) (h2a : -90 ≤ lat2) (h2b : lat2 ≤ 90)
    (hz : haversineDistance lat1 lon1 lat2 lon2 = 0) :
    Real.sin (((lat2 : ℝ) - (lat1 : ℝ)) * Real.pi / 180 / 2) = 0 ∧
    Real.cos ((lat1 : ℝ) * Real.pi / 180) * Real.cos ((lat2 : ℝ) * Real.pi / 180) *
      Real.sin (((lon2 : ℝ) - (lon1 : ℝ)) * Real.pi / 180 / 2) *
      Real.sin (((lon2 : ℝ) - (lon1 : ℝ)) * Real.pi / 180 / 2) = 0 := by
  have ha0 := havA_eq_zero_of_dist_eq_zero lat1 lon1 lat2 lon2
    (havA_nonneg_of_range lat1 lon1 lat2 lon2 h1a h1b h2a h2b) hz
  have hc1 : 0 ≤ Real.cos ((lat1 : ℝ) * Real.pi / 180) :=
    Real.cos_nonneg_of_mem_Icc (lat_angle_mem_Icc h1a h1b)
  have hc2 : 0 ≤ Real.cos ((lat2 : ℝ) * Real.pi / 180) :=
    Real.cos_nonneg_of_mem_Icc (lat_angle_mem_Icc h2a h2b)
  have hp1 : 0 ≤ Real.sin (((lat2 : ℝ) - (lat1 : ℝ)) * Real.pi / 180 / 2) *
      Real.sin (((lat2 : ℝ) - (lat1 : ℝ)) * Real.pi / 180 / 2) := mul_self_nonneg _
  have hp2 : 0 ≤ Real.cos ((lat1 : ℝ) * Real.pi / 180) *
      Real.cos ((lat2 : ℝ) * Real.pi / 180) *
      Real.sin (((lon2 : ℝ) - (lon1 : ℝ)) * Real.pi / 180 / 2) *
      Real.sin (((lon2 : ℝ) - (lon1 : ℝ)) * Real.pi / 180 / 2) := by
    nlinarith [mul_nonneg (mul_nonneg hc1 hc2)
      (mul_self_nonneg (Real.sin (((lon2 : ℝ) - (lon1 : ℝ)) * Real.pi / 180 / 2)))]
  simp only [havA] at ha0
  constructor
  · have hsq : Real.sin (((lat2 : ℝ) - (lat1 : ℝ)) * Real.pi / 180 / 2) *
        Real.sin (((lat2 : ℝ) - (lat1 : ℝ)) * Real.pi / 180 / 2) = 0 := by
      linarith
    exact mul_self_eq_zero.mp hsq
  · linarith

/-- A rational multiple q*pi/360 of pi with q in [-360, 360] has zero
sine only at q = 0 or q = plus-or-minus 360. -/
theorem sin_rat_angle_eq_zero (q : ℚ) (h1 : -360 ≤ q) (h2 : q ≤ 360)
    (h : Real.sin ((q : ℝ) * Real.pi / 360) = 0) : q = 0 ∨ q = 360 ∨ q = -360 := by
  rw [Real.sin_eq_zero_iff] at h
  obtain ⟨n, hn⟩ := h
  have hpi := Real.pi_pos
  rw [eq_div_iff (by norm_num : (360 : ℝ) ≠ 0)] at hn
  have hqpi : (q : ℝ) * Real.pi = (360 * (n : ℝ)) * Real.pi := by
    linarith [hn]
  have hq : (q : ℝ) = 360 * (n : ℝ) := mul_right_cancel₀ (ne_of_gt hpi) hqpi
  have hb1 : (-360 : ℝ) ≤ 360 * (n : ℝ) := by
    rw [← hq]
    exact_mod_cast h1
  have hb2 : (360 : ℝ) * (n : ℝ) ≤ 360 := by
    rw [← hq]
    exact_mod_cast h2
  have hn1 : (-1 : Int) ≤ n := by
    have : (-1 : ℝ) ≤ (n : ℝ) := by linarith
    exact_mod_cast this
  have hn2 : n ≤ 1 := by
    have : ((n : ℝ)) ≤ 1 := by linarith
    exact_mod_cast this
  interval_cases n
  · right
    right
    norm_num at hq
    exact_mod_cast hq
  · left
    norm_num at hq
    exact_mod_cast hq
  · right
    left
    norm_num at hq
    exact_mod_cast hq

/-- In-range latitudes with a vanishing half-difference sine are equal. -/
theorem lat_eq_of_sin_eq_zero {lat1 lat2 : ℚ}
    (h1a : -90 ≤ lat1) (h1b : lat1 ≤ 90) (h2a : -90 ≤ lat2) (h2b : lat2 ≤ 90)
    (h : Real.sin (((lat2 : ℝ) - (lat1 : ℝ)) * Real.pi / 180 / 2) = 0) :
    lat2 = lat1 := by
  have harg : ((lat2 : ℝ) - (lat1 : ℝ)) * Real.pi / 180 / 2 =
      (((lat2 - lat1 : ℚ)) : ℝ) * Real.pi / 360 := by
    push_cast
    ring
  rw [harg] at h
  rcases sin_rat_angle_eq_zero (lat2 - lat1) (by linarith) (by linarith) h with
    h0 | h360 | hm360
  · linarith
  · linarith
  · linarith

/-- In-range longitudes with a vanishing half-difference sine are equal
or form the antimeridian pair -180 and 180. -/
theorem lon_cases_of_sin_eq_zero (lon1 lon2 : ℚ)
    (h1a : -180 ≤ lon1) (h1b : lon1 ≤ 180) (h2a : -180 ≤ lon2) (h2b : lon2 ≤ 180)
    (h : Real.sin (((lon2 : ℝ) - (lon1 : ℝ)) * Real.pi / 180 / 2) = 0) :
    lon2 = lon1 ∨ (lon1 = -180 ∧ lon2 = 180) ∨ (lon1 = 180 ∧ lon2 = -180) := by
  have harg : ((lon2 : ℝ) - (lon1 : ℝ)) * Real.pi / 180 / 2 =
      (((lon2 - lon1 : ℚ)) : ℝ) * Real.pi / 360 := by
    push_cast
    ring
  rw [harg] at h
  rcases sin_rat_angle_eq_zero (lon2 - lon1) (by linarith) (by linarith) h with
    h0 | h360 | hm360
  · left
    linarith
  · right
    left
    exact ⟨by linarith, by linarith⟩
  · right
    right
    exact ⟨by linarith, by linarith⟩

/-- Zero haversine distance between in-range centroids whose first
latitude is strictly inside the polar range means the centroids are
identical or they are the antimeridian wrap pair at equal latitude. -/
theorem centroid_cases_of_dist_eq_zero (c c2 : Centroid)
    (hla : -90 < c.lat) (hlb : c.lat < 90)
    (h2a : -90 ≤ c2.lat) (h2b : c2.lat ≤ 90)
    (hlo1 : -180 ≤ c.lon) (hlo2 : c.lon ≤ 180)
    (h2c : -180 ≤ c2.lon) (h2d : c2.lon ≤ 180)
    (hz : haversineDistance c.lat c.lon c2.lat c2.lon = 0) :
    c2 = c ∨ (c.lon = -180 ∧ c2.lon = 180) ∨ (c.lon = 180 ∧ c2.lon = -180) := by
  obtain ⟨hp1, hp2⟩ := havA_parts_eq_zero c.lat c.lon c2.lat c2.lon
    (le_of_lt hla) (le_of_lt hlb) h2a h2b hz
  have hlat : c2.lat = c.lat :=
    lat_eq_of_sin_eq_zero (le_of_lt hla) (le_of_lt hlb) h2a h2b hp1
  have hc1 : 0 < Real.cos ((c.lat : ℝ) * Real.pi / 180) :=
    Real.cos_pos_of_mem_Ioo (lat_angle_mem_Ioo hla hlb)
  have hc2 : 0 < Real.cos ((c2.lat : ℝ) * Real.pi / 180) := by
    rw [hlat]
    exact hc1
  have hsin : Real.sin (((c2.lon : ℝ) - (c.lon : ℝ)) * Real.pi / 180 / 2) = 0 := by
    rcases mul_eq_zero.mp hp2 with h | h
    · rcases mul_eq_zero.mp h with h2 | h2
      · rcases mul_eq_zero.mp h2 with h3 | h3
        · exact absurd h3 (ne_of_gt hc1)
        · exact absurd h3 (ne_of_gt hc2)
      · exact h2
    · exact h
  rcases lon_cases_of_sin_eq_zero c.lon c2.lon hlo1 hlo2 h2c h2d hsin with h | h | h
  · left
    obtain ⟨l2, o2⟩ := c2
    obtain ⟨l1, o1⟩ := c
    have e1 : l2 = l1 := hlat
    have e2 : o2 = o1 := h
    subst e1
    subst e2
    rfl
  · right
    left
    exact h
  · right
    right
    exact h

/-- Claim C1.  Index completeness: a region indexed with its in-range
catalog centroid is found again by findStateAtCoords at that exact
centroid, except for ties with a coincident centroid, in which case one
of the coincident regions is returned.  Coincident is formalized by the
locator's own tie class, zero haversine distance.  The theorem proves
three things: the result is always an indexed region whose centroid is
coincident with the query centroid; if the region is the unique indexed
region whose centroid is at distance zero, it itself is returned; and
for a centroid strictly inside the polar range over an in-range catalog,
coincidence collapses to identity (two distinct centroids at distance
zero would have to share a latitude of 90 or -90 or be the antimeridian
pair -180/180, and the latter never shares a lookup cell), so the region
itself is returned whenever no other indexed region carries the
identical centroid. -/
theorem findStateAtCoords_at_own_centroid (mm : MMState) (data : List StateInput)
    (rec : StateInput) (c : Centroid)
    (hidx : mm.spatialIndex = buildIndexList data)
    (hcons : ∀ r ∈ data, r.centroid.isSome →
      (mm.states r.id).bind StateRec.centroid = r.centroid)
    (hmem : rec ∈ data) (hc : rec.centroid = some c)
    (hlat1 : -90 ≤ c.lat) (hlat2 : c.lat ≤ 90)
    (hlon1 : -180 ≤ c.lon) (hlon2 : c.lon ≤ 180) :
    ∃ s : StateRec, findStateAtCoords mm c.lat c.lon = some s ∧
      (∃ (c2 : Centroid) (r2 : StateInput), r2 ∈ data ∧ r2.centroid = some c2 ∧
        mm.states r2.id = some s ∧ s.centroid = some c2 ∧
        haversineDistance c.lat c.lon c2.lat c2.lon = 0) ∧
      ((∀ r2 ∈ data, ∀ c2 : Centroid, r2.centroid = some c2 →
          haversineDistance c.lat c.lon c2.lat c2.lon = 0 → r2.id = rec.id) →
        mm.states rec.id = some s) ∧
      (-90 < c.lat → c.lat < 90 →
        (∀ r2 ∈ data, ∀ c2 : Centroid, r2.centroid = some c2 →
          -90 ≤ c2.lat ∧ c2.lat ≤ 90 ∧ -180 ≤ c2.lon ∧ c2.lon ≤ 180) →
        (∀ r2 ∈ data, r2.centroid = some c → r2.id = rec.id) →
        mm.states rec.id = some s) := by
  have hmemid : rec.id ∈ candidatesAt mm c.lat c.lon := by
    have : rec.id ∈ cellList (buildIndexList data) (queryCellIndex c.lat c.lon) := by
      rw [mem_cellList_build]
      refine ⟨rec, hmem, rfl, c, hc, (0, 0), ?_, ?_⟩
      · rw [mem_neighborOffsets]
        norm_num
      · simp [queryCellIndex]
    simpa [candidatesAt, hidx, cellList] using this
  have hres : ∀ id2 ∈ candidatesAt mm c.lat c.lon,
      ((mm.states id2).bind StateRec.centroid).isSome := by
    intro id2 hid2
    have hid2b : id2 ∈ cellList (buildIndexList data) (queryCellIndex c.lat c.lon) := by
      simpa [candidatesAt, hidx, cellList] using hid2
    rw [mem_cellList_build] at hid2b
    obtain ⟨r2, hr2, hid, c2, hc2, -⟩ := hid2b
    subst hid
    have := hcons r2 hr2 (by simp [hc2])
    rw [this, hc2]
    rfl
  have hne : candidatesAt mm c.lat c.lon ≠ [] := List.ne_nil_of_mem hmemid
  obtain ⟨-, -, hmain⟩ := findStateAtCoords_contract mm c.lat c.lon hres
  obtain ⟨i, hi, s, hs, hfind, hmin, -⟩ := hmain hne
  have hmemib : (candidatesAt mm c.lat c.lon).get ⟨i, hi⟩ ∈
      cellList (buildIndexList data) (queryCellIndex c.lat c.lon) := by
    have hmemi : (candidatesAt mm c.lat c.lon).get ⟨i, hi⟩ ∈ candidatesAt mm c.lat c.lon :=
      List.mem_iff_get.mpr ⟨⟨i, hi⟩, rfl⟩
    simp only [candidatesAt, hidx, cellList] at hmemi ⊢
    exact hmemi
  rw [mem_cellList_build] at hmemib
  obtain ⟨r2, hr2, hid, c2, hc2, d, hd, hflat⟩ := hmemib
  have hbind := hcons r2 hr2 (by simp [hc2])
  have hs2 : mm.states r2.id = some s := by
    rw [← hid]
    exact hs
  have hcent : s.centroid = some c2 := by
    rw [hs2, hc2] at hbind
    simpa using hbind
  -- the input record itself sits somewhere in the candidate list at distance 0
  obtain ⟨⟨j0, hj0⟩, hj0eq⟩ := List.mem_iff_get.mp hmemid
  have hrecbind := hcons rec hmem (by simp [hc])
  obtain ⟨srec, crec, hsrec, hcrec⟩ := @resolve_of_isSome mm.states rec.id (by
    rw [hrecbind, hc]
    rfl)
  have hcrec2 : crec = c := by
    rw [hsrec] at hrecbind
    rw [hc] at hrecbind
    simp only [Option.some_bind, hcrec, Option.some.injEq] at hrecbind
    exact hrecbind
  have hd0 : candidateDist mm.states c.lat c.lon rec.id = 0 := by
    rw [candidateDist_resolve hsrec hcrec, hcrec2]
    exact haversineDistance_self c.lat c.lon
  have hdi : candidateDist mm.states c.lat c.lon ((candidatesAt mm c.lat c.lon).get ⟨i, hi⟩) =
      haversineDistance c.lat c.lon c2.lat c2.lon := by
    rw [hid]
    exact candidateDist_resolve hs2 hcent c.lat c.lon
  have hle := hmin j0 hj0
  rw [hj0eq, hd0, hdi] at hle
  have hdzero : haversineDistance c.lat c.lon c2.lat c2.lon = 0 :=
    le_antisymm hle (haversineDistance_nonneg c.lat c.lon c2.lat c2.lon)
  refine ⟨s, hfind, ⟨c2, r2, hr2, hc2, hs2, hcent, hdzero⟩, ?_, ?_⟩
  · intro huniq
    have hsame : r2.id = rec.id := huniq r2 hr2 c2 hc2 hdzero
    rw [← hsame]
    exact hs2
  · intro hpole1 hpole2 hranges huniq2
    obtain ⟨hr2a, hr2b, hr2c, hr2d⟩ := hranges r2 hr2 c2 hc2
    obtain ⟨hbx1, hbx2, hby1, hby2⟩ := (mem_neighborOffsets d).mp hd
    have hxeq : clampX (homeGridX c.lon) = clampX (homeGridX c2.lon + d.1) := by
      have hfl := hflat
      simp only [queryCellIndex, flatIndex, clampX, clampY] at hfl
      simp only [clampX]
      omega
    rcases centroid_cases_of_dist_eq_zero c c2 hpole1 hpole2 hr2a hr2b
        hlon1 hlon2 hr2c hr2d hdzero with hcc | hwrap | hwrap
    · have hrc : r2.centroid = some c := by
        rw [hc2, hcc]
      have hid2 := huniq2 r2 hr2 hrc
      rw [← hid2]
      exact hs2
    · exfalso
      rw [hwrap.1, hwrap.2] at hxeq
      rw [show homeGridX (-180) = 0 from by norm_num [homeGridX]] at hxeq
      rw [show homeGridX 180 = 720 from by norm_num [homeGridX]] at hxeq
      simp only [clampX] at hxeq
      omega
    · exfalso
      rw [hwrap.1, hwrap.2] at hxeq
      rw [show homeGridX (-180) = 0 from by norm_num [homeGridX]] at hxeq
      rw [show homeGridX 180 = 720 from by norm_num [homeGridX]] at hxeq
      simp only [clampX] at hxeq
      omega

/-- Below-range longitudes clamp to column 0. -/
theorem clampX_homeGridX_low {lon : ℚ} (h : lon ≤ -180) : clampX (homeGridX lon) = 0 := by
  have hq : (lon + 180) * ((720 : ℚ) / 360) ≤ 0 := by
    nlinarith
  have hf : homeGridX lon ≤ 0 := by
    have := Int.floor_le_floor hq
    simpa [homeGridX] using this
  simp only [clampX]
  omega

/-- Above-range longitudes clamp to column 719. -/
theorem clampX_homeGridX_high {lon : ℚ} (h : 180 ≤ lon) : clampX (homeGridX lon) = 719 := by
  have hq : (720 : ℚ) ≤ (lon + 180) * ((720 : ℚ) / 360) := by
    nlinarith
  have hf : (720 : Int) ≤ homeGridX lon := by
    rw [homeGridX]
    rw [Int.le_floor]
    exact_mod_cast hq
  simp only [clampX]
  omega

/-- Above-range latitudes clamp to row 0. -/
theorem clampY_homeGridY_low {lat : ℚ} (h : 90 ≤ lat) : clampY (homeGridY lat) = 0 := by
  have hq : (90 - lat) * ((360 : ℚ) / 180) ≤ 0 := by
    nlinarith
  have hf : homeGridY lat ≤ 0 := by
    have := Int.floor_le_floor hq
    simpa [homeGridY] using this
  simp only [clampY]
  omega

/-- Below-range latitudes clamp to row 359. -/
theorem clampY_homeGridY_high {lat : ℚ} (h : lat ≤ -90) : clampY (homeGridY lat) = 359 := by
  have hq : (360 : ℚ) ≤ (90 - lat) * ((360 : ℚ) / 180) := by
    nlinarith
  have hf : (360 : Int) ≤ homeGridY lat := by
    rw [homeGridY]
    rw [Int.le_floor]
    exact_mod_cast hq
  simp only [clampY]
  omega

/-- The clamped column of any query agrees with that of the query whose
longitude is clamped into [-180, 180]. -/
theorem clampX_homeGridX_clamp (lon : ℚ) :
    clampX (homeGridX lon) = clampX (homeGridX (max (-180) (min 180 lon))) := by
  rcases le_total lon (-180) with h1 | h1
  · have hm : max (-180) (min 180 lon) = -180 := by
      have : min 180 lon = lon := min_eq_right (by linarith)
      rw [this]
      exact max_eq_left h1
    rw [hm, clampX_homeGridX_low h1, clampX_homeGridX_low (le_refl (-180 : ℚ))]
  · rcases le_total 180 lon with h2 | h2
    · have hm : max (-180) (min 180 lon) = 180 := by
        have : min 180 lon = 180 := min_eq_left h2
        rw [this]
        exact max_eq_right (by norm_num)
      rw [hm, clampX_homeGridX_high h2, clampX_homeGridX_high (le_refl (180 : ℚ))]
    · have hm : max (-180) (min 180 lon) = lon := by
        have : min 180 lon = lon := min_eq_right h2
        rw [this]
        exact max_eq_right h1
      rw [hm]

/-- The clamped row of any query agrees with that of the query whose
latitude is clamped into [-90, 90]. -/
theorem clampY_homeGridY_clamp (lat : ℚ) :
    clampY (homeGridY lat) = clampY (homeGridY (max (-90) (min 90 lat))) := by
  rcases le_total lat (-90) with h1 | h1
  · have hm : max (-90) (min 90 lat) = -90 := by
      have : min 90 lat = lat := min_eq_right (by linarith)
      rw [this]
      exact max_eq_left h1
    rw [hm, clampY_homeGridY_high h1, clampY_homeGridY_high (le_refl (-90 : ℚ))]
  · rcases le_total 90 lat with h2 | h2
    · have hm : max (-90) (min 90 lat) = 90 := by
        have : min 90 lat = 90 := min_eq_left h2
        rw [this]
        exact max_eq_right (by norm_num)
      rw [hm, clampY_homeGridY_low h2, clampY_homeGridY_low (le_refl (90 : ℚ))]
    · have hm : max (-90) (min 90 lat) = lat := by
        have : min 90 lat = lat := min_eq_right h2
        rw [this]
        exact max_eq_right h1
      rw [hm]

/-- Claim C10.  Out-of-range totality by clamping: for every rational
query, the clamped cell coordinates lie in [0, 719] x [0, 359], the flat
index lies inside the allocated array range [0, 720 * 360), the cell
consulted equals the cell of the query clamped into latitude [-90, 90]
and longitude [-180, 180] (the nearest edge cell), and therefore the
candidate list findStateAtCoords fetches is that edge cell's list; the
lookup is a total function, so it never throws. -/
theorem findStateAtCoords_clamped_total (lat lon : ℚ) :
    (0 ≤ clampX (homeGridX lon) ∧ clampX (homeGridX lon) ≤ 719 ∧
      0 ≤ clampY (homeGridY lat) ∧ clampY (homeGridY lat) ≤ 359) ∧
    (0 ≤ queryCellIndex lat lon ∧ queryCellIndex lat lon < 720 * 360) ∧
    queryCellIndex lat lon =
      queryCellIndex (max (-90) (min 90 lat)) (max (-180) (min 180 lon)) ∧
    (∀ mm : MMState,
      candidatesAt mm lat lon =
        candidatesAt mm (max (-90) (min 90 lat)) (max (-180) (min 180 lon))) := by
  have hx : 0 ≤ clampX (homeGridX lon) ∧ clampX (homeGridX lon) ≤ 719 := by
    simp only [clampX]
    omega
  have hy : 0 ≤ clampY (homeGridY lat) ∧ clampY (homeGridY lat) ≤ 359 := by
    simp only [clampY]
    omega
  have hcell : queryCellIndex lat lon =
      queryCellIndex (max (-90) (min 90 lat)) (max (-180) (min 180 lon)) := by
    simp only [queryCellIndex]
    rw [← clampX_homeGridX_clamp, ← clampY_homeGridY_clamp]
  refine ⟨⟨hx.1, hx.2, hy.1, hy.2⟩, ?_, hcell, ?_⟩
  · simp only [queryCellIndex, flatIndex]
    omega
  · intro mm
    simp only [candidatesAt, hcell]

/-- Claim C3.  Spatial-index build: a region with a centroid is inserted
into exactly the cells of the clamped 5 x 5 neighborhood of its home
cell gx = floor((lon+180)*720/360), gy = floor((90-lat)*360/180) (the
neighborhood clamps at the grid edges and never wraps), and a region
without a centroid is inserted into no cell. -/
theorem buildSpatialIndex_neighborhood (data : List StateInput) (rec : StateInput)
    (hnd : (data.map StateInput.id).Nodup) (hmem : rec ∈ data) :
    (∀ c : Centroid, rec.centroid = some c → ∀ x y : Int,
      0 ≤ x → x < 720 → 0 ≤ y → y < 360 →
      (rec.id ∈ cellList (buildIndexList data) (flatIndex x y) ↔
        ∃ dx dy : Int, -2 ≤ dx ∧ dx ≤ 2 ∧ -2 ≤ dy ∧ dy ≤ 2 ∧
          x = clampX (Int.floor ((c.lon + 180) * ((720 : ℚ) / 360)) + dx) ∧
          y = clampY (Int.floor ((90 - c.lat) * ((360 : ℚ) / 180)) + dy))) ∧
    (rec.centroid = none → ∀ idx : Int, rec.id ∉ cellList (buildIndexList data) idx) := by
  constructor
  · intro c hc x y hx0 hx1 hy0 hy1
    rw [mem_cellList_build]
    constructor
    · rintro ⟨r2, hr2, hid, c2, hc2, d, hd, hflat⟩
      have hrr : rec = r2 := eq_of_nodup_ids hnd hmem hr2 hid
      subst hrr
      rw [hc] at hc2
      cases hc2
      rw [mem_neighborOffsets] at hd
      have hxy : x = clampX (homeGridX c.lon + d.1) ∧
          y = clampY (homeGridY c.lat + d.2) := by
        simp only [flatIndex, clampX, clampY] at hflat ⊢
        omega
      exact ⟨d.1, d.2, hd.1, hd.2.1, hd.2.2.1, hd.2.2.2, hxy.1, hxy.2⟩
    · rintro ⟨dx, dy, hdx1, hdx2, hdy1, hdy2, hxe, hye⟩
      refine ⟨rec, hmem, rfl, c, hc, (dx, dy), ?_, ?_⟩
      · rw [mem_neighborOffsets]
        exact ⟨hdx1, hdx2, hdy1, hdy2⟩
      · show flatIndex x y =
          flatIndex (clampX (homeGridX c.lon + dx)) (clampY (homeGridY c.lat + dy))
        simp only [homeGridX, homeGridY]
        rw [← hxe, ← hye]
  · intro hc idx hmemc
    rw [mem_cellList_build] at hmemc
    obtain ⟨r2, hr2, hid, c2, hc2, -⟩ := hmemc
    have hrr : rec = r2 := eq_of_nodup_ids hnd hmem hr2 hid
    subst hrr
    rw [hc] at hc2
    cases hc2

/-- Claim C9.  buildSpatialIndex is deterministic and idempotent: the
index it installs is a pure function of the input sequence alone (the
previous spatialIndex contents never leak into the result), so building
twice from the same input yields the identical index, cell by cell and
in candidate-list order. -/
theorem buildSpatialIndex_idempotent :
    (∀ (mm : MMState) (data : List StateInput) (idx : Int),
      (buildSpatialIndex (buildSpatialIndex mm data) data).spatialIndex idx =
        (buildSpatialIndex mm data).spatialIndex idx) ∧
    (∀ (mm1 mm2 : MMState) (data : List StateInput) (idx : Int),
      (buildSpatialIndex mm1 data).spatialIndex idx =
        (buildSpatialIndex mm2 data).spatialIndex idx) :=
  ⟨fun _ _ _ => rfl, fun _ _ _ _ => rfl⟩

/-- Every state the candidate loop can produce carries a centroid (the
loop guard skips all others), provided the incoming accumulator does. -/
theorem findClosestLoop_centroid_isSome (states : String → Option StateRec) (lat lon : ℚ)
    (l : List String) :
    ∀ acc : Option (StateRec × Real),
      (∀ p : StateRec × Real, acc = some p → p.1.centroid.isSome) →
      ∀ p : StateRec × Real,
        findClosestLoop states lat lon l acc = some p → p.1.centroid.isSome := by
  induction l with
  | nil =>
    intro acc hacc p hp
    exact hacc p hp
  | cons stateId rest ih =>
    intro acc hacc p hp
    cases hstates : states stateId with
    | none =>
      simp only [findClosestLoop, hstates] at hp
      exact ih acc hacc p hp
    | some s1 =>
      cases hcent : s1.centroid with
      | none =>
        simp only [findClosestLoop, hstates, hcent] at hp
        exact ih acc hacc p hp
      | some c1 =>
        simp only [findClosestLoop, hstates, hcent] at hp
        cases acc with
        | none =>
          refine ih _ ?_ p hp
          intro q hq
          simp only [Option.some.injEq] at hq
          rw [← hq]
          simp [hcent]
        | some best =>
          have hp2 : findClosestLoop states lat lon rest
              (if haversineDistance lat lon c1.lat c1.lon < best.2
                then some (s1, haversineDistance lat lon c1.lat c1.lon)
                else some best) = some p := hp
          by_cases hlt : haversineDistance lat lon c1.lat c1.lon < best.2
          · rw [if_pos hlt] at hp2
            refine ih _ ?_ p hp2
            intro q hq
            simp only [Option.some.injEq] at hq
            rw [← hq]
            simp [hcent]
          · rw [if_neg hlt] at hp2
            refine ih _ ?_ p hp2
            intro q hq
            simp only [Option.some.injEq] at hq
            rw [← hq]
            exact hacc best rfl

/-- Claim C8.  A catalog region without a centroid is unreachable from
lookup: findStateAtCoords only ever returns states carrying a centroid
(the candidate comparison skips all others), and the identifier of a
centroid-free record of a duplicate-free build input lands in no cell of
the spatial index. -/
theorem no_centroid_unreachable :
    (∀ (mm : MMState) (lat lon : ℚ) (s : StateRec), s.centroid = none →
      findStateAtCoords mm lat lon ≠ some s) ∧
    (∀ (data : List StateInput) (rec : StateInput),
      (data.map StateInput.id).Nodup → rec ∈ data → rec.centroid = none →
      ∀ idx : Int, rec.id ∉ cellList (buildIndexList data) idx) := by
  constructor
  · intro mm lat lon s hnone hsome
    cases hidx : mm.spatialIndex (queryCellIndex lat lon) with
    | none => simp [findStateAtCoords, hidx] at hsome
    | some l =>
      by_cases hl : l = []
      · simp [findStateAtCoords, hidx, hl] at hsome
      · simp only [findStateAtCoords, hidx, if_neg hl] at hsome
        obtain ⟨q, hq, hqs⟩ := Option.map_eq_some'.mp hsome
        have hcent := findClosestLoop_centroid_isSome mm.states lat lon l none
          (fun p hp => by cases hp) q hq
        rw [hqs, hnone] at hcent
        cases hcent
  · intro data rec hnd hmem hc idx hmemc
    rw [mem_cellList_build] at hmemc
    obtain ⟨r2, hr2, hid, c2, hc2, -⟩ := hmemc
    have hrr : rec = r2 := eq_of_nodup_ids hnd hmem hr2 hid
    subst hrr
    rw [hc] at hc2
    cases hc2

/-- assocGet through a value-only map. -/
theorem assocGet_map_pair (g : Region → Region) (l : List (String × Region)) (key : String) :
    assocGet (l.map (fun p => (p.1, g p.2))) key = (assocGet l key).map g := by
  induction l with
  | nil => rfl
  | cons p t ih =>
    by_cases h : p.1 = key
    · simp [assocGet, h]
    · simp [assocGet, h, ih]

/-- assocGet through the keyed selected-flag update. -/
theorem assocGet_setSelectedTrue (l : List (String × Region)) (id2 key : String) :
    assocGet
        (l.map (fun p => if p.1 = id2 then (p.1, { p.2 with selected := true }) else p))
        key =
      (assocGet l key).map
        (fun r => if key = id2 then { r with selected := true } else r) := by
  induction l with
  | nil => rfl
  | cons p t ih =>
    by_cases hpid : p.1 = id2
    · by_cases hpk : p.1 = key
      · have hkid : key = id2 := by rw [← hpk, hpid]
        simp [assocGet, hpid, hpk, hkid]
      · rw [hpid] at hpk
        simp [assocGet, hpid, hpk, ih]
    · by_cases hpk : p.1 = key
      · have hkid : ¬ key = id2 := by rw [← hpk]; exact hpid
        simp [assocGet, hpid, hpk, hkid]
      · simp [assocGet, hpid, hpk, ih]

/-- assocGet after the deselect-all pass. -/
theorem assocGet_clearSelections (l : List (String × Region)) (key : String) :
    assocGet (clearSelections l) key =
      (assocGet l key).map (fun r => { r with selected := false }) :=
  assocGet_map_pair (fun r => { r with selected := false }) l key

/-- Every region is deselected after the deselect-all pass. -/
theorem clearSelections_selected (l : List (String × Region)) :
    ∀ p ∈ clearSelections l, p.2.selected = false := by
  intro p hp
  simp only [clearSelections, List.mem_map] at hp
  obtain ⟨q, hq, hqe⟩ := hp
  rw [← hqe]

/-- The deselect-all pass keeps the key sequence. -/
theorem clearSelections_keys (l : List (String × Region)) :
    (clearSelections l).map Prod.fst = l.map Prod.fst := by
  induction l with
  | nil => rfl
  | cons p t _ => simp [clearSelections]

/-- The keyed selected-flag update keeps the key sequence. -/
theorem setSelectedTrue_keys (l : List (String × Region)) (id2 : String) :
    (l.map (fun p => if p.1 = id2 then (p.1, { p.2 with selected := true }) else p)).map
        Prod.fst = l.map Prod.fst := by
  induction l with
  | nil => rfl
  | cons p t ih =>
    by_cases hpid : p.1 = id2 <;> simp [hpid, ih]

/-- Selected-region count of a cons cell. -/
theorem selectedCount_cons (p : String × Region) (t : List (String × Region)) :
    selectedCount (p :: t) = selectedCount t + (if p.2.selected then 1 else 0) := by
  by_cases h : p.2.selected = true
  · simp [selectedCount, List.filter_cons, h]
  · simp [selectedCount, List.filter_cons, h]

/-- A list of all-deselected regions has selected-count 0. -/
theorem selectedCount_all_false (l : List (String × Region))
    (hall : ∀ p ∈ l, p.2.selected = false) : selectedCount l = 0 := by
  induction l with
  | nil => rfl
  | cons p t ih =>
    rw [selectedCount_cons, hall p (List.mem_cons_self _ _)]
    simp [ih (fun q hq => hall q (List.mem_cons_of_mem _ hq))]

/-- Setting the selected flag of one key in an all-deselected
duplicate-free map leaves at most one region selected. -/
theorem setSelectedTrue_count_le_one (l : List (String × Region)) (id2 : String)
    (hall : ∀ p ∈ l, p.2.selected = false)
    (hnd : (l.map Prod.fst).Nodup) :
    selectedCount
      (l.map (fun p => if p.1 = id2 then (p.1, { p.2 with selected := true }) else p)) ≤ 1 := by
  induction l with
  | nil => simp [selectedCount]
  | cons p t ih =>
    have hallt : ∀ q ∈ t, q.2.selected = false :=
      fun q hq => hall q (List.mem_cons_of_mem _ hq)
    rw [List.map_cons] at hnd
    have hnd2 := List.nodup_cons.mp hnd
    by_cases hpid : p.1 = id2
    · have htail : ∀ q ∈ t.map
          (fun q => if q.1 = id2 then (q.1, { q.2 with selected := true }) else q),
          q.2.selected = false := by
        intro q hq
        rw [List.mem_map] at hq
        obtain ⟨q0, hq0, hqe⟩ := hq
        have hq0id : ¬ q0.1 = id2 := by
          intro he
          exact hnd2.1 (by
            rw [hpid, ← he]
            exact List.mem_map_of_mem Prod.fst hq0)
        rw [← hqe]
        simp only [hq0id, if_false]
        exact hallt q0 hq0
      rw [List.map_cons, selectedCount_cons, selectedCount_all_false _ htail]
      simp [hpid]
    · have htail := ih hallt hnd2.2
      rw [List.map_cons, selectedCount_cons]
      simp only [hpid, if_false, hall p (List.mem_cons_self _ _)]
      simpa using htail

/-- assocGet after selectRegion: the selected flag of every surviving
entry is exactly (key hit and the id was found); everything else about
the entry is unchanged. -/
theorem assocGet_selectRegion (st : RendererState) (id2 key : String) :
    assocGet ((selectRegion st id2).1).regions key =
      (assocGet st.regions key).map
        (fun r =>
          if key = id2 ∧ (assocGet st.regions id2).isSome = true
          then { r with selected := true }
          else { r with selected := false }) := by
  cases hget : assocGet (clearSelections st.regions) id2 with
  | none =>
    have hnone : assocGet st.regions id2 = none := by
      rw [assocGet_clearSelections] at hget
      exact Option.map_eq_none'.mp hget
    have hreg : (selectRegion st id2).1.regions = clearSelections st.regions := by
      simp [selectRegion, hget]
    rw [hreg, assocGet_clearSelections]
    cases hk : assocGet st.regions key with
    | none => rfl
    | some r => simp [hnone]
  | some r0 =>
    have hsome : (assocGet st.regions id2).isSome = true := by
      rw [assocGet_clearSelections] at hget
      cases hx : assocGet st.regions id2 with
      | none => rw [hx] at hget; simp at hget
      | some r1 => rfl
    have hreg : (selectRegion st id2).1.regions =
        (clearSelections st.regions).map
          (fun p => if p.1 = id2 then (p.1, { p.2 with selected := true }) else p) := by
      simp [selectRegion, hget, renderToCanvasState]
    rw [hreg, assocGet_setSelectedTrue, assocGet_clearSelections]
    cases hk : assocGet st.regions key with
    | none => rfl
    | some r =>
      by_cases hkid : key = id2
      · simp [hkid, hsome]
      · simp [hkid]

/-- selectRegion keeps the key sequence. -/
theorem selectRegion_keys (st : RendererState) (id2 : String) :
    ((selectRegion st id2).1).regions.map Prod.fst = st.regions.map Prod.fst := by
  cases hget : assocGet (clearSelections st.regions) id2 with
  | none =>
    have hreg : (selectRegion st id2).1.regions = clearSelections st.regions := by
      simp [selectRegion, hget]
    rw [hreg, clearSelections_keys]
  | some r0 =>
    have hreg : (selectRegion st id2).1.regions =
        (clearSelections st.regions).map
          (fun p => if p.1 = id2 then (p.1, { p.2 with selected := true }) else p) := by
      simp [selectRegion, hget, renderToCanvasState]
    rw [hreg, setSelectedTrue_keys, clearSelections_keys]

/-- After any single selectRegion call on a duplicate-free regions map,
at most one region is selected. -/
theorem selectRegion_count_le_one (st : RendererState) (id2 : String)
    (hnd : (st.regions.map Prod.fst).Nodup) :
    selectedCount ((selectRegion st id2).1).regions ≤ 1 := by
  cases hget : assocGet (clearSelections st.regions) id2 with
  | none =>
    have hreg : (selectRegion st id2).1.regions = clearSelections st.regions := by
      simp [selectRegion, hget]
    rw [hreg, selectedCount_all_false _ (clearSelections_selected st.regions)]
    norm_num
  | some r0 =>
    have hreg : (selectRegion st id2).1.regions =
        (clearSelections st.regions).map
          (fun p => if p.1 = id2 then (p.1, { p.2 with selected := true }) else p) := by
      simp [selectRegion, hget, renderToCanvasState]
    rw [hreg]
    refine setSelectedTrue_count_le_one _ id2 (clearSelections_selected st.regions) ?_
    rw [clearSelections_keys]
    exact hnd

/-- A chain of selectRegion calls keeps the key sequence. -/
theorem foldl_selectRegion_keys (ids : List String) (st : RendererState) :
    ((ids.foldl (fun s i => (selectRegion s i).1) st).regions).map Prod.fst =
      st.regions.map Prod.fst := by
  induction ids generalizing st with
  | nil => rfl
  | cons i rest ih =>
    rw [List.foldl_cons, ih, selectRegion_keys]

/-- Claim C5.  Selection exclusivity: selecting A and then B leaves A
deselected and B selected (for distinct identifiers present in a
duplicate-free catalog), and after any nonempty sequence of selection
calls at most one region of the catalog is selected. -/
theorem selectRegion_exclusive (st : RendererState) (A B : String) (hAB : A ≠ B)
    (hA : (assocGet st.regions A).isSome = true)
    (hB : (assocGet st.regions B).isSome = true)
    (hnd : (st.regions.map Prod.fst).Nodup) :
    (∃ r : Region,
      assocGet ((selectRegion (selectRegion st A).1 B).1).regions A = some r ∧
        r.selected = false) ∧
    (∃ r : Region,
      assocGet ((selectRegion (selectRegion st A).1 B).1).regions B = some r ∧
        r.selected = true) ∧
    selectedCount ((selectRegion (selectRegion st A).1 B).1).regions ≤ 1 ∧
    (∀ (st0 : RendererState) (ids : List String), ids ≠ [] →
      (st0.regions.map Prod.fst).Nodup →
      selectedCount ((ids.foldl (fun s i => (selectRegion s i).1) st0).regions) ≤ 1) := by
  have hA1 : assocGet ((selectRegion st A).1).regions A =
      (assocGet st.regions A).map
        (fun r =>
          if A = A ∧ (assocGet st.regions A).isSome = true
          then { r with selected := true } else { r with selected := false }) :=
    assocGet_selectRegion st A A
  have hB1 : assocGet ((selectRegion st A).1).regions B =
      (assocGet st.regions B).map
        (fun r =>
          if B = A ∧ (assocGet st.regions A).isSome = true
          then { r with selected := true } else { r with selected := false }) :=
    assocGet_selectRegion st A B
  obtain ⟨rA, hrA⟩ := Option.isSome_iff_exists.mp hA
  obtain ⟨rB, hrB⟩ := Option.isSome_iff_exists.mp hB
  have hA1s : (assocGet ((selectRegion st A).1).regions A).isSome = true := by
    rw [hA1, hrA]
    rfl
  have hB1s : (assocGet ((selectRegion st A).1).regions B).isSome = true := by
    rw [hB1, hrB]
    rfl
  refine ⟨?_, ?_, ?_, ?_⟩
  · rw [assocGet_selectRegion]
    obtain ⟨rA1, hrA1⟩ := Option.isSome_iff_exists.mp hA1s
    rw [hrA1]
    refine ⟨_, rfl, ?_⟩
    simp [hAB]
  · rw [assocGet_selectRegion]
    obtain ⟨rB1, hrB1⟩ := Option.isSome_iff_exists.mp hB1s
    rw [hrB1]
    refine ⟨_, rfl, ?_⟩
    simp [hB1s]
  · refine selectRegion_count_le_one _ B ?_
    rw [selectRegion_keys]
    exact hnd
  · intro st0 ids hne hnd0
    rcases List.eq_nil_or_concat ids with rfl | ⟨L, b, rfl⟩
    · exact absurd rfl hne
    · rw [List.concat_eq_append, List.foldl_append, List.foldl_cons, List.foldl_nil]
      refine selectRegion_count_le_one _ b ?_
      rw [foldl_selectRegion_keys]
      exact hnd0

/-- Claim C6 (amended).  Mutations with an identifier absent from the
catalog: setRegionOwner, setStateColor and updateStateData are exact
no-ops (and, being total functions, never throw); selectRegion returns
null and selects nothing, but it is not a state no-op: it has already
deselected every region before the failing lookup, so the resulting
regions map is the deselect-all pass of the original. -/
theorem mutation_unknown_id_noop (rst : RendererState) (mm : MMState)
    (unknownId owner color : String) (patch : List (String × String))
    (hr : assocGet rst.regions unknownId = none)
    (hs : mm.states unknownId = none)
    (he : mm.stateElements unknownId = none) :
    setRegionOwner rst unknownId owner = rst ∧
    setStateColor mm unknownId color = mm ∧
    updateStateData mm unknownId patch = mm ∧
    (selectRegion rst unknownId).2 = none ∧
    (selectRegion rst unknownId).1 = { rst with regions := clearSelections rst.regions } ∧
    (∀ p ∈ (selectRegion rst unknownId).1.regions, p.2.selected = false) := by
  have hclear : assocGet (clearSelections rst.regions) unknownId = none := by
    rw [assocGet_clearSelections, hr]
    rfl
  refine ⟨?_, ?_, ?_, ?_, ?_, ?_⟩
  · simp [setRegionOwner, hr]
  · simp [setStateColor, he]
  · simp [updateStateData, hs]
  · simp [selectRegion, hclear]
  · simp [selectRegion, hclear]
  · have hreg : (selectRegion rst unknownId).1.regions = clearSelections rst.regions := by
      simp [selectRegion, hclear]
    rw [hreg]
    exact clearSelections_selected rst.regions

/-- renderRegion reads only the path data, owner and selected flag of a
region (beyond the theme and palette). -/
theorem renderRegionTrace_proj (theme : Theme) (oc : String → Option String)
    (r1 r2 : Region) (h1 : r1.pathData = r2.pathData) (h2 : r1.owner = r2.owner)
    (h3 : r1.selected = r2.selected) :
    renderRegionTrace theme oc r1 = renderRegionTrace theme oc r2 := by
  simp only [renderRegionTrace, h1, h2, h3]

/-- The per-region pass of renderToCanvas is determined by the rendering
projection of the regions map. -/
theorem flatMap_renderRegionTrace_proj (theme : Theme) (oc : String → Option String) :
    ∀ l1 l2 : List (String × Region), regionRenderProj l1 = regionRenderProj l2 →
      l1.flatMap (fun p => renderRegionTrace theme oc p.2) =
        l2.flatMap (fun p => renderRegionTrace theme oc p.2) := by
  intro l1
  induction l1 with
  | nil =>
    intro l2 h
    cases l2 with
    | nil => rfl
    | cons q t2 => simp [regionRenderProj] at h
  | cons p t1 ih =>
    intro l2 h
    cases l2 with
    | nil => simp [regionRenderProj] at h
    | cons q t2 =>
      simp only [regionRenderProj, List.map_cons, List.cons.injEq, Prod.mk.injEq] at h
      obtain ⟨⟨hpd, how, hsel⟩, htail⟩ := h
      simp only [List.flatMap_cons]
      rw [renderRegionTrace_proj theme oc p.2 q.2 hpd how hsel, ih t2 htail]

/-- Claim C4.  Rasterization determinism: rendering twice in a row emits
byte-identical command traces (the only state renderToCanvas mutates is
the texture staleness flag, which the trace does not read), and the
trace is a pure function of the tuple renderToCanvas reads: theme,
ownership palette, SVG document, canvas dimensions, and the per-region
projection (path geometry, owner, selected) in iteration order - two
states agreeing there produce identical traces whatever their other
(hidden, mutable) fields hold. -/
theorem renderToCanvas_deterministic :
    (∀ st : RendererState, (renderToCanvas (renderToCanvas st).1).2 = (renderToCanvas st).2) ∧
    (∀ s1 s2 : RendererState, s1.theme = s2.theme → s1.ownerColors = s2.ownerColors →
      s1.svgDoc = s2.svgDoc → s1.textureW = s2.textureW → s1.textureH = s2.textureH →
      regionRenderProj s1.regions = regionRenderProj s2.regions →
      (renderToCanvas s1).2 = (renderToCanvas s2).2) := by
  have hmain : ∀ s1 s2 : RendererState, s1.theme = s2.theme →
      s1.ownerColors = s2.ownerColors → s1.svgDoc = s2.svgDoc →
      s1.textureW = s2.textureW → s1.textureH = s2.textureH →
      regionRenderProj s1.regions = regionRenderProj s2.regions →
      renderTrace s1 = renderTrace s2 := by
    intro s1 s2 h1 h2 h3 h4 h5 h6
    simp only [renderTrace, h1, h2, h3, h4, h5]
    rw [flatMap_renderRegionTrace_proj s2.theme s2.ownerColors s1.regions s2.regions h6]
  constructor
  · intro st
    exact hmain (renderToCanvasState st) st rfl rfl rfl rfl rfl rfl
  · intro s1 s2 h1 h2 h3 h4 h5 h6
    exact hmain s1 s2 h1 h2 h3 h4 h5 h6

/-- The hex-digit encoder and parseInt digit values agree. -/
theorem hexDigitVal_hexDigitChar : ∀ d < 16, hexDigitVal (hexDigitChar d) = d := by
  decide

/-- Math.floor of channel * 0.3 equals natural-number division 3n/10 (the
JavaScript double product rounds to a value with the same floor for every
channel byte). -/
theorem floor_three_tenths (n : Nat) :
    Int.floor ((n : ℚ) * (3 / 10)) = ((3 * n / 10 : Nat) : Int) := by
  have hX : ((((3 * n / 10 : Nat) : Int)) : ℚ) = ((3 * n / 10 : Nat) : ℚ) :=
    Int.cast_natCast _
  rw [Int.floor_eq_iff]
  constructor
  · have h1 : (10 : ℚ) * ((3 * n / 10 : Nat) : ℚ) ≤ ((3 * n : Nat) : ℚ) := by
      have h : 10 * (3 * n / 10) ≤ 3 * n := by omega
      exact_mod_cast h
    push_cast at h1
    rw [hX]
    linarith
  · have h2 : ((3 * n : Nat) : ℚ) < 10 * ((3 * n / 10 : Nat) : ℚ) + 10 := by
      have h : 3 * n < 10 * (3 * n / 10) + 10 := by omega
      exact_mod_cast h
    push_cast at h2
    rw [hX]
    linarith

/-- Round-trip of one channel byte through the encoder and parseInt. -/
theorem parseHex2_encode (n : Nat) (h : n < 256) :
    parseHex2 [hexDigitChar (n / 16), hexDigitChar (n % 16)] = n := by
  have h1 : n / 16 < 16 := by omega
  have h2 : n % 16 < 16 := by omega
  simp only [parseHex2]
  rw [hexDigitVal_hexDigitChar _ h1, hexDigitVal_hexDigitChar _ h2]
  omega

/-- Claim C7.  Land-fill color derivation: for every six-digit hex base
color, adjustColorForLand multiplies each channel by 0.3 = 3/10 and
floors (equivalently, takes 3 * channel / 10 in integer division); in
particular the base color 2a3a4a yields exactly rgb(12, 17, 22). -/
theorem adjustColorForLand_spec :
    (∀ r g b : Nat, r < 256 → g < 256 → b < 256 →
      adjustColorForLand (encodeHexColor r g b) =
        "rgb(" ++ toString (3 * r / 10) ++ ", " ++ toString (3 * g / 10) ++ ", " ++
          toString (3 * b / 10) ++ ")") ∧
    adjustColorForLand "#2a3a4a" = "rgb(12, 17, 22)" := by
  have hgen : ∀ r g b : Nat, r < 256 → g < 256 → b < 256 →
      adjustColorForLand (encodeHexColor r g b) =
        "rgb(" ++ toString (3 * r / 10) ++ ", " ++ toString (3 * g / 10) ++ ", " ++
          toString (3 * b / 10) ++ ")" := by
    intro r g b hr hg hb
    have e1 : parseHex2 (((encodeHexColor r g b).data.drop 1).take 2) = r :=
      parseHex2_encode r hr
    have e2 : parseHex2 (((encodeHexColor r g b).data.drop 3).take 2) = g :=
      parseHex2_encode g hg
    have e3 : parseHex2 (((encodeHexColor r g b).data.drop 5).take 2) = b :=
      parseHex2_encode b hb
    simp only [adjustColorForLand]
    rw [e1, e2, e3, floor_three_tenths r, floor_three_tenths g, floor_three_tenths b]
    rw [Int.toNat_natCast, Int.toNat_natCast, Int.toNat_natCast]
  refine ⟨hgen, ?_⟩
  have h := hgen 42 58 74 (by norm_num) (by norm_num) (by norm_num)
  rw [show encodeHexColor 42 58 74 = "#2a3a4a" from by decide] at h
  rw [h]
  decide

/-- Claim C6 (counterexample).  The claim says every mutation with an
unknown identifier leaves the state exactly unchanged, but selectRegion
with an unknown identifier clears the existing selection: on a catalog
whose region A is selected, the call returns null yet the state
changes. -/
theorem mutation_unknown_id_counterexample :
    assocGet stSel.regions "X" = none ∧
    (selectRegion stSel "X").2 = none ∧
    (selectRegion stSel "X").1 ≠ stSel := by
  refine ⟨by decide, by decide, ?_⟩
  intro h
  have h2 := congrArg (fun s => s.regions) h
  exact absurd h2 (by decide)

/-- The candidate list at the query (10, 10) in the A/B/C scenario. -/
theorem mmABC_candidates : candidatesAt mmABC 10 10 = ["A"] := by
  norm_num [candidatesAt, mmABC, buildIndexList, dataABC, insertState, neighborOffsets,
    pushAt, flatIndex, clampX, clampY, homeGridX, homeGridY, queryCellIndex]

/-- Every candidate at (10, 10) in the A/B/C scenario resolves to a
state with a centroid. -/
theorem mmABC_hres :
    ∀ id2 ∈ candidatesAt mmABC 10 10,
      ((mmABC.states id2).bind StateRec.centroid).isSome := by
  rw [mmABC_candidates]
  intro id2 h
  simp only [List.mem_singleton] at h
  subst h
  decide

/-- Witness for C1 on concrete data: region A of the A/B/C catalog is
locatable at its own centroid (10, 10). -/
theorem findStateAtCoords_at_own_centroid_witness :
    ((⟨"A", some ⟨10, 10⟩⟩ : StateInput) ∈ dataABC ∧
      (∀ r ∈ dataABC, r.centroid.isSome →
        (mmABC.states r.id).bind StateRec.centroid = r.centroid)) ∧
    (∃ s : StateRec, findStateAtCoords mmABC 10 10 = some s ∧
      (∃ (c2 : Centroid) (r2 : StateInput), r2 ∈ dataABC ∧ r2.centroid = some c2 ∧
        mmABC.states r2.id = some s ∧ s.centroid = some c2 ∧
        haversineDistance 10 10 c2.lat c2.lon = 0) ∧
      ((∀ r2 ∈ dataABC, ∀ c2 : Centroid, r2.centroid = some c2 →
          haversineDistance 10 10 c2.lat c2.lon = 0 →
            r2.id = (⟨"A", some ⟨10, 10⟩⟩ : StateInput).id) →
        mmABC.states (⟨"A", some ⟨10, 10⟩⟩ : StateInput).id = some s) ∧
      (-90 < (10 : ℚ) → (10 : ℚ) < 90 →
        (∀ r2 ∈ dataABC, ∀ c2 : Centroid, r2.centroid = some c2 →
          -90 ≤ c2.lat ∧ c2.lat ≤ 90 ∧ -180 ≤ c2.lon ∧ c2.lon ≤ 180) →
        (∀ r2 ∈ dataABC, r2.centroid = some (⟨10, 10⟩ : Centroid) →
          r2.id = (⟨"A", some ⟨10, 10⟩⟩ : StateInput).id) →
        mmABC.states (⟨"A", some ⟨10, 10⟩⟩ : StateInput).id = some s)) :=
  ⟨⟨by decide, by decide⟩,
   findStateAtCoords_at_own_centroid mmABC dataABC ⟨"A", some ⟨10, 10⟩⟩ ⟨10, 10⟩ rfl
     (by decide) (by decide) rfl (by decide) (by decide) (by decide) (by decide)⟩

/-- Witness for C2 on concrete data: the resolvability hypothesis holds
in the A/B/C scenario and the contract applies there. -/
theorem findStateAtCoords_contract_witness :
    (∀ id2 ∈ candidatesAt mmABC 10 10,
      ((mmABC.states id2).bind StateRec.centroid).isSome) ∧
    (candidatesAt mmABC 10 10 = [] → findStateAtCoords mmABC 10 10 = none) :=
  ⟨mmABC_hres, (findStateAtCoords_contract mmABC 10 10 mmABC_hres).2.1⟩

/-- Witness for C3 on concrete data: the insertion characterization of
region A's identifier, instantiated at its home cell (380, 160). -/
theorem buildSpatialIndex_neighborhood_witness :
    ((dataABC.map StateInput.id).Nodup ∧ (⟨"A", some ⟨10, 10⟩⟩ : StateInput) ∈ dataABC) ∧
    ("A" ∈ cellList (buildIndexList dataABC) (flatIndex 380 160) ↔
      ∃ dx dy : Int, -2 ≤ dx ∧ dx ≤ 2 ∧ -2 ≤ dy ∧ dy ≤ 2 ∧
        (380 : Int) = clampX (Int.floor (((10 : ℚ) + 180) * ((720 : ℚ) / 360)) + dx) ∧
        (160 : Int) = clampY (Int.floor ((90 - (10 : ℚ)) * ((360 : ℚ) / 180)) + dy)) :=
  ⟨⟨by decide, by decide⟩,
   (buildSpatialIndex_neighborhood dataABC ⟨"A", some ⟨10, 10⟩⟩ (by decide) (by decide)).1
     ⟨10, 10⟩ rfl 380 160 (by decide) (by decide) (by decide) (by decide)⟩

/-- Witness for C4 on concrete data: two renderer states differing only
in hidden fields (scene, camera, region names, original fills, texture
handle) produce identical traces. -/
theorem renderToCanvas_deterministic_witness :
    (stEx1.theme = stEx2.theme ∧ regionRenderProj stEx1.regions = regionRenderProj stEx2.regions) ∧
    (renderToCanvas stEx1).2 = (renderToCanvas stEx2).2 :=
  ⟨⟨rfl, by decide⟩,
   renderToCanvas_deterministic.2 stEx1 stEx2 rfl rfl rfl rfl rfl (by decide)⟩

/-- Witness for C5 on concrete data: selecting A then B on the two-region
catalog leaves A deselected. -/
theorem selectRegion_exclusive_witness :
    (("A" : String) ≠ "B" ∧ (assocGet stSel.regions "A").isSome = true ∧
      (assocGet stSel.regions "B").isSome = true ∧
      (stSel.regions.map Prod.fst).Nodup) ∧
    (∃ r : Region,
      assocGet ((selectRegion (selectRegion stSel "A").1 "B").1).regions "A" = some r ∧
        r.selected = false) :=
  ⟨⟨by decide, by decide, by decide, by decide⟩,
   (selectRegion_exclusive stSel "A" "B" (by decide) (by decide) (by decide) (by decide)).1⟩

/-- Witness for C6 (amended) on concrete data: the no-op mutators with an
unknown identifier leave the states untouched. -/
theorem mutation_unknown_id_noop_witness :
    (assocGet stSel.regions "X" = none ∧ mmABC.states "X" = none ∧
      mmABC.stateElements "X" = none) ∧
    setRegionOwner stSel "X" "player" = stSel ∧
    setStateColor mmABC "X" "#123456" = mmABC :=
  ⟨⟨by decide, by decide, by decide⟩,
   (mutation_unknown_id_noop stSel mmABC "X" "player" "#123456" []
      (by decide) (by decide) (by decide)).1,
   (mutation_unknown_id_noop stSel mmABC "X" "player" "#123456" []
      (by decide) (by decide) (by decide)).2.1⟩

/-- Witness for C7 on concrete data: the channel bytes of 2a3a4a. -/
theorem adjustColorForLand_spec_witness :
    ((42 : Nat) < 256 ∧ (58 : Nat) < 256 ∧ (74 : Nat) < 256) ∧
    adjustColorForLand (encodeHexColor 42 58 74) =
      "rgb(" ++ toString (3 * 42 / 10) ++ ", " ++ toString (3 * 58 / 10) ++ ", " ++
        toString (3 * 74 / 10) ++ ")" :=
  ⟨⟨by decide, by decide, by decide⟩,
   adjustColorForLand_spec.1 42 58 74 (by decide) (by decide) (by decide)⟩

/-- Witness for C8 on concrete data: the centroid-free region C is never
returned and its identifier is indexed nowhere. -/
theorem no_centroid_unreachable_witness :
    (stateRecC.centroid = none ∧ (⟨"C", none⟩ : StateInput) ∈ dataABC ∧
      (dataABC.map StateInput.id).Nodup) ∧
    findStateAtCoords mmABC 10 10 ≠ some stateRecC ∧
    "C" ∉ cellList (buildIndexList dataABC) 0 :=
  ⟨⟨rfl, by decide, by decide⟩,
   no_centroid_unreachable.1 mmABC 10 10 stateRecC rfl,
   no_centroid_unreachable.2 dataABC ⟨"C", none⟩ (by decide) (by decide) rfl 0⟩
